import Mathlib

/-!
# Verification of the ghostty-web viewport/scroll and input-coordination layer

Shallow embedding of the scroll/viewport controller (`src/lib/terminal.ts`),
the input de-duplication coordinator (`InputHandler`), and the selection
manager, together with theorems settling the specification claims.

JavaScript numbers are modelled as `ℚ` (all quantities involved are exact
rationals: offsets, times, easing ratios), strings as Lean `String`s, and
`undefined`/`null` fields as `Option`.
-/

namespace GhosttyWeb

namespace Scroll

/-- Viewport state of `Terminal` (src/lib/terminal.ts):
`viewportY` (fractional during smooth scrolling), `targetViewportY`, and
whether a smooth-scroll animation is in flight (`scrollAnimationFrame`
being set, together with `scrollAnimationStartTime`). -/
structure ScrollState where
  viewportY : ℚ
  targetViewportY : ℚ
  animating : Bool
deriving Repr, DecidableEq

/-- `Math.max(0, Math.min(maxScroll, x))` with `maxScroll = scrollbackLength`. -/
def clampOffset (L : ℕ) (x : ℚ) : ℚ := max 0 (min (L : ℚ) x)

/-- `Terminal.scrollLines(amount)` (terminal.ts:1618): clamp
`viewportY - amount` to `[0, scrollbackLength]`; if the value changed,
store it and fire the scroll notification with the new offset.
Returns the new state and the list of fired notifications. -/
def scrollLines (L : ℕ) (s : ScrollState) (amount : ℚ) : ScrollState × List ℚ :=
  let newViewportY := clampOffset L (s.viewportY - amount)
  if newViewportY ≠ s.viewportY then
    ({ s with viewportY := newViewportY }, [newViewportY])
  else
    (s, [])

/-- `Terminal.scrollPages(amount)` (terminal.ts:1649): `scrollLines(amount * rows)`. -/
def scrollPages (L rows : ℕ) (s : ScrollState) (amount : ℚ) : ScrollState × List ℚ :=
  scrollLines L s (amount * rows)

/-- `Terminal.scrollToTop()` (terminal.ts:1656). -/
def scrollToTop (L : ℕ) (s : ScrollState) : ScrollState × List ℚ :=
  if 0 < L ∧ s.viewportY ≠ (L : ℚ) then
    ({ s with viewportY := (L : ℚ) }, [(L : ℚ)])
  else
    (s, [])

/-- `Terminal.scrollToBottom()` (terminal.ts:1668). -/
def scrollToBottom (s : ScrollState) : ScrollState × List ℚ :=
  if s.viewportY ≠ 0 then
    ({ s with viewportY := 0 }, [0])
  else
    (s, [])

/-- `Terminal.scrollToLine(line)` (terminal.ts:1683). -/
def scrollToLine (L : ℕ) (s : ScrollState) (line : ℚ) : ScrollState × List ℚ :=
  let newViewportY := clampOffset L line
  if newViewportY ≠ s.viewportY then
    ({ s with viewportY := newViewportY }, [newViewportY])
  else
    (s, [])

/-- The per-frame move ratio of `Terminal.animateScroll` (terminal.ts:1775):
`framesForDuration = duration / 1000 * 60`, `moveRatio = 1 - (1 / framesForDuration)^2`. -/
def moveRatio (d : ℚ) : ℚ := 1 - (1 / (d / 1000 * 60)) ^ 2

/-- One animation frame of `Terminal.animateScroll` (terminal.ts:1744).
If no animation is in flight the callback returns immediately; if the
remaining distance is below the 0.01 epsilon it snaps to the target and
stops; otherwise it moves `moveRatio` of the remaining distance and fires
the floored offset. -/
def animateTick (d : ℚ) (s : ScrollState) : ScrollState × List ℚ :=
  if s.animating = false then (s, [])
  else
    let distance := s.targetViewportY - s.viewportY
    if |distance| < 1 / 100 then
      ({ viewportY := s.targetViewportY, targetViewportY := s.targetViewportY,
         animating := false },
       [((⌊s.targetViewportY⌋ : ℤ) : ℚ)])
    else
      let newY := s.viewportY + distance * moveRatio d
      ({ s with viewportY := newY }, [((⌊newY⌋ : ℤ) : ℚ)])

/-- `Terminal.smoothScrollTo(targetY)` (terminal.ts:1702) with smooth-scroll
duration `d` (`options.smoothScrollDuration ?? 100`). A zero duration jumps
immediately and fires the floored offset; otherwise the (clamped) target is
updated, and if no animation is running one is started — the source calls
`animateScroll()` synchronously, so the first frame runs as part of the call. -/
def smoothScrollTo (L : ℕ) (d : ℚ) (s : ScrollState) (targetY : ℚ) : ScrollState × List ℚ :=
  let newTarget := clampOffset L targetY
  if d = 0 then
    ({ s with viewportY := newTarget, targetViewportY := newTarget },
     [((⌊newTarget⌋ : ℤ) : ℚ)])
  else
    let s1 := { s with targetViewportY := newTarget }
    if s1.animating then (s1, [])
    else animateTick d { s1 with animating := true }

/-- The scroll operations of the public surface, plus the animation frame. -/
inductive ScrollOp where
  | lines (amount : ℚ)
  | pages (amount : ℚ)
  | toTop
  | toBottom
  | toLine (n : ℚ)
  | smoothTo (targetY : ℚ)
  | tick
deriving Repr

def applyScrollOp (L rows : ℕ) (d : ℚ) (s : ScrollState) : ScrollOp → ScrollState × List ℚ
  | .lines a => scrollLines L s a
  | .pages a => scrollPages L rows s a
  | .toTop => scrollToTop L s
  | .toBottom => scrollToBottom s
  | .toLine n => scrollToLine L s n
  | .smoothTo t => smoothScrollTo L d s t
  | .tick => animateTick d s

/-- Run a sequence of scroll operations, collecting all fired notifications. -/
def runScrollOps (L rows : ℕ) (d : ℚ) (s : ScrollState) : List ScrollOp → ScrollState × List ℚ
  | [] => (s, [])
  | op :: ops =>
    let r1 := applyScrollOp L rows d s op
    let r2 := runScrollOps L rows d r1.1 ops
    (r2.1, r1.2 ++ r2.2)

/-- Viewport invariant: both the offset and the animation target lie in
`[0, scrollbackLength]`. -/
def ScrollInv (L : ℕ) (s : ScrollState) : Prop :=
  0 ≤ s.viewportY ∧ s.viewportY ≤ (L : ℚ) ∧
  0 ≤ s.targetViewportY ∧ s.targetViewportY ≤ (L : ℚ)

/-- The scroll-relevant step of `Terminal.writeInternal` (terminal.ts:1310):
after feeding data to the engine, `if (this.viewportY !== 0) this.scrollToBottom()`
snaps the viewport back to the live tail without animation. -/
def writeScrollStep (s : ScrollState) : ScrollState × List ℚ :=
  if s.viewportY ≠ 0 then scrollToBottom s else (s, [])

/-- Smooth-scroll events: a wheel-driven retarget (`smoothScrollTo`) or an
animation frame. -/
inductive SmoothEv where
  | retarget (t : ℚ)
  | tick
deriving Repr

def smoothStep (L : ℕ) (d : ℚ) (s : ScrollState) : SmoothEv → ScrollState × List ℚ
  | .retarget t => smoothScrollTo L d s t
  | .tick => animateTick d s

def runSmooth (L : ℕ) (d : ℚ) (s : ScrollState) : List SmoothEv → ScrollState × List ℚ
  | [] => (s, [])
  | e :: es =>
    let r1 := smoothStep L d s e
    let r2 := runSmooth L d r1.1 es
    (r2.1, r1.2 ++ r2.2)

/-- The targets requested by the retarget events of a trace, in order. -/
def retargets : List SmoothEv → List ℚ
  | [] => []
  | .retarget t :: es => t :: retargets es
  | .tick :: es => retargets es

/-- The factor by which `animateScroll` shrinks the remaining distance each
frame: `1 - moveRatio d = (1 / framesForDuration)^2`. -/
def shrinkFactor (d : ℚ) : ℚ := (1 / (d / 1000 * 60)) ^ 2

/-- Invariant of an upward smooth-scroll session: the offset chases the
animation target from below within `[0, scrollbackLength]`, and an idle
controller is settled on its target. -/
def SmoothInv (L : ℕ) (s : ScrollState) : Prop :=
  0 ≤ s.viewportY ∧ s.viewportY ≤ s.targetViewportY ∧
  s.targetViewportY ≤ (L : ℚ) ∧
  (s.animating = false → s.viewportY = s.targetViewportY)

end Scroll

namespace Lifecycle

/-- The lifecycle-relevant fields of `Terminal` (src/lib/terminal.ts):
`isOpen`, `isDisposed`, whether `wasmTerm` is set (it is created by `open()`
and freed by `dispose()`), and the viewport offset. -/
structure TermState where
  isOpen : Bool
  isDisposed : Bool
  hasWasm : Bool
  viewportY : ℚ
deriving Repr, DecidableEq

/-- `Terminal.getScrollbackLength()` (terminal.ts:1896): returns 0 when
`wasmTerm` is absent, otherwise the engine's scrollback length `L`. -/
def scrollbackLength (t : TermState) (L : ℕ) : ℕ := if t.hasWasm then L else 0

/-- `Terminal.assertOpen()` (terminal.ts:1982): throws when disposed or not
yet opened. -/
def assertOpen (t : TermState) : Except String Unit :=
  if t.isDisposed then .error "Terminal has been disposed"
  else if !t.isOpen then
    .error "Terminal must be opened before use. Call terminal.open(parent) first."
  else .ok ()

/-- `Terminal.write` (terminal.ts:1273): `assertOpen()` first; the grid
mutation itself lives in the external engine, and the live-tail snap of
`writeInternal` forces the offset back to 0 when it was non-zero. -/
def write (t : TermState) : Except String TermState := do
  assertOpen t
  pure (if t.viewportY ≠ 0 then { t with viewportY := 0 } else t)

/-- `Terminal.paste` (terminal.ts:1349): `assertOpen()` first; emission is
side channel only. -/
def paste (t : TermState) : Except String TermState := do
  assertOpen t
  pure t

/-- `Terminal.resize` (terminal.ts:1393): `assertOpen()` first. -/
def resize (t : TermState) : Except String TermState := do
  assertOpen t
  pure t

/-- `Terminal.clear` (terminal.ts:1427): `assertOpen()` first. -/
def clear (t : TermState) : Except String TermState := do
  assertOpen t
  pure t

/-- `Terminal.scrollLines` (terminal.ts:1618): throws `'Terminal not open'`
exactly when `wasmTerm` is absent; otherwise clamps and stores. -/
def scrollLines (t : TermState) (L : ℕ) (amount : ℚ) : Except String TermState :=
  if !t.hasWasm then .error "Terminal not open"
  else
    .ok { t with
          viewportY := Scroll.clampOffset (scrollbackLength t L) (t.viewportY - amount) }

/-- `Terminal.scrollPages` (terminal.ts:1649): delegates to `scrollLines`. -/
def scrollPages (t : TermState) (L rows : ℕ) (amount : ℚ) : Except String TermState :=
  scrollLines t L (amount * rows)

/-- `Terminal.scrollToTop` (terminal.ts:1656): no open/disposed check at all;
with no engine the scrollback length reads as 0 and the call is a no-op. -/
def scrollToTop (t : TermState) (L : ℕ) : Except String TermState :=
  let sb := scrollbackLength t L
  .ok (if 0 < sb ∧ t.viewportY ≠ (sb : ℚ) then { t with viewportY := (sb : ℚ) } else t)

/-- `Terminal.scrollToBottom` (terminal.ts:1668): no open/disposed check. -/
def scrollToBottom (t : TermState) : Except String TermState :=
  .ok (if t.viewportY ≠ 0 then { t with viewportY := 0 } else t)

/-- `Terminal.scrollToLine` (terminal.ts:1683): no open/disposed check;
clamps against the (possibly 0) scrollback length. -/
def scrollToLine (t : TermState) (L : ℕ) (line : ℚ) : Except String TermState :=
  .ok (let newY := Scroll.clampOffset (scrollbackLength t L) line
       if newY ≠ t.viewportY then { t with viewportY := newY } else t)

/-- Whether a call threw. -/
def throws {α : Type} : Except String α → Bool
  | .error _ => true
  | .ok _ => false

/-- A `Terminal` that has not been opened yet (constructor state). -/
def preOpen : TermState := ⟨false, false, false, 0⟩

/-- A `Terminal` after `dispose()`: `isOpen` reset, `isDisposed` set,
`wasmTerm` freed; the viewport field keeps its last value. -/
def disposed (y : ℚ) : TermState := ⟨false, true, false, y⟩

end Lifecycle

namespace Input

/-- The two origins tracked by the paste de-duplication record
(`lastPasteSource`). -/
inductive PasteSrc where
  | paste
  | beforeinput
deriving Repr, DecidableEq

/-- The de-duplication state of `InputHandler` (src/unnamed/part_001):
the composing flag plus the last recorded payload/timestamp for each of the
overlapping delivery paths. Absent records (`null`) are `none`; the
timestamp fields keep their last value, as in the source. Times are
rational milliseconds (`performance.now()`). -/
structure DedupState where
  isComposing : Bool
  lastKeyDownData : Option String
  lastKeyDownTime : ℚ
  lastPasteData : Option String
  lastPasteTime : ℚ
  lastPasteSource : Option PasteSrc
  lastCompositionData : Option String
  lastCompositionTime : ℚ
  lastBeforeInputData : Option String
  lastBeforeInputTime : ℚ
deriving Repr, DecidableEq

/-- Fresh `InputHandler` de-duplication state. -/
def initState : DedupState :=
  { isComposing := false
    lastKeyDownData := none, lastKeyDownTime := 0
    lastPasteData := none, lastPasteTime := 0, lastPasteSource := none
    lastCompositionData := none, lastCompositionTime := 0
    lastBeforeInputData := none, lastBeforeInputTime := 0 }

/-- `InputHandler.BEFORE_INPUT_IGNORE_MS` (part_001:189). -/
def beforeInputIgnoreMs : ℚ := 100

/-- `String.replace(/\n/g, '\r')` used on `insertText` payloads. -/
def convertNewlines (s : String) : String :=
  ⟨s.data.map fun c => if c = '\n' then '\r' else c⟩

/-- `InputHandler.recordKeyDownData` (part_001:694). -/
def recordKeyDownData (s : DedupState) (data : String) (now : ℚ) : DedupState :=
  { s with lastKeyDownData := some data, lastKeyDownTime := now }

/-- `InputHandler.recordPasteData` (part_001:702). -/
def recordPasteData (s : DedupState) (data : String) (src : PasteSrc) (now : ℚ) : DedupState :=
  { s with lastPasteData := some data, lastPasteTime := now, lastPasteSource := some src }

/-- `InputHandler.recordBeforeInputData` (part_001:760). -/
def recordBeforeInputData (s : DedupState) (data : String) (now : ℚ) : DedupState :=
  { s with lastBeforeInputData := some data, lastBeforeInputTime := now }

/-- `InputHandler.recordCompositionData` (part_001:768). -/
def recordCompositionData (s : DedupState) (data : String) (now : ℚ) : DedupState :=
  { s with lastCompositionData := some data, lastCompositionTime := now }

/-- `InputHandler.shouldIgnoreBeforeInput` (part_001:711): checks the keydown
record; note that the source sets `lastKeyDownData = null` unconditionally
once a record exists, whether or not it matched. -/
def shouldIgnoreBeforeInput (s : DedupState) (data : String) (now : ℚ) : Bool × DedupState :=
  match s.lastKeyDownData with
  | none => (false, s)
  | some prev =>
    let isDuplicate :=
      decide (now - s.lastKeyDownTime < beforeInputIgnoreMs) && decide (prev = data)
    (isDuplicate, { s with lastKeyDownData := none })

/-- `InputHandler.shouldIgnoreBeforeInputFromComposition` (part_001:726):
clears the composition record only when it suppressed a duplicate. -/
def shouldIgnoreBeforeInputFromComposition (s : DedupState) (data : String) (now : ℚ) :
    Bool × DedupState :=
  match s.lastCompositionData with
  | none => (false, s)
  | some prev =>
    let isDuplicate :=
      decide (now - s.lastCompositionTime < beforeInputIgnoreMs) && decide (prev = data)
    (isDuplicate, if isDuplicate then { s with lastCompositionData := none } else s)

/-- `InputHandler.shouldIgnoreCompositionEnd` (part_001:743): clears the
beforeinput record only when it suppressed a duplicate. -/
def shouldIgnoreCompositionEnd (s : DedupState) (data : String) (now : ℚ) :
    Bool × DedupState :=
  match s.lastBeforeInputData with
  | none => (false, s)
  | some prev =>
    let isDuplicate :=
      decide (now - s.lastBeforeInputTime < beforeInputIgnoreMs) && decide (prev = data)
    (isDuplicate, if isDuplicate then { s with lastBeforeInputData := none } else s)

/-- `InputHandler.shouldIgnorePasteEvent` (part_001:776): same-source repeats
are never suppressed; a cross-source duplicate within the window is
suppressed and consumes the record. -/
def shouldIgnorePasteEvent (s : DedupState) (data : String) (src : PasteSrc) (now : ℚ) :
    Bool × DedupState :=
  match s.lastPasteData with
  | none => (false, s)
  | some prev =>
    if s.lastPasteSource = some src then (false, s)
    else
      let isDuplicate :=
        decide (now - s.lastPasteTime < beforeInputIgnoreMs) && decide (prev = data)
      (isDuplicate,
       if isDuplicate then { s with lastPasteData := none, lastPasteSource := none } else s)

/-- `InputHandler.emitPasteData` (part_001:681): wraps in bracketed-paste
markers when mode 2004 is set. -/
def emitPasteData (bracketedPaste : Bool) (text : String) : String :=
  if bracketedPaste then "\x1b[200~" ++ text ++ "\x1b[201~" else text

/-- The `InputEvent.inputType` values distinguished by
`InputHandler.handleBeforeInput` (part_001:565). -/
inductive InputType where
  | insertText
  | insertReplacementText
  | insertLineBreak
  | insertParagraph
  | deleteContentBackward
  | deleteContentForward
  | insertFromPaste
  | otherType
deriving Repr, DecidableEq

/-- `InputHandler.handleBeforeInput` (part_001:554). `evComposing` is the
event's own `isComposing` flag; `data` is `event.data ?? ''` (JavaScript
string truthiness is modelled as the `≠ ""` test). Returns the new state and
the payloads emitted through `onData`. -/
def handleBeforeInput (bracketedPaste : Bool) (s : DedupState) (evComposing : Bool)
    (ty : InputType) (data : String) (now : ℚ) : DedupState × List String :=
  if s.isComposing || evComposing then (s, [])
  else
    match ty with
    | .insertFromPaste =>
      if data = "" then (s, [])
      else
        let r := shouldIgnorePasteEvent s data .beforeinput now
        if r.1 then (r.2, [])
        else (recordPasteData r.2 data .beforeinput now, [emitPasteData bracketedPaste data])
    | _ =>
      let output? : Option String :=
        match ty with
        | .insertText | .insertReplacementText =>
          if data ≠ "" then some (convertNewlines data) else none
        | .insertLineBreak | .insertParagraph => some "\r"
        | .deleteContentBackward => some "\x7F"
        | .deleteContentForward => some "\x1B[3~"
        | _ => none
      match output? with
      | none => (s, [])
      | some output =>
        let r1 := shouldIgnoreBeforeInput s output now
        if r1.1 then (r1.2, [])
        else
          let r2 :=
            if data ≠ "" then shouldIgnoreBeforeInputFromComposition r1.2 data now
            else (false, r1.2)
          if r2.1 then (r2.2, [])
          else
            let s3 := if data ≠ "" then recordBeforeInputData r2.2 data now else r2.2
            (s3, [output])

/-- `InputHandler.handleCompositionStart` (part_001:625). -/
def handleCompositionStart (s : DedupState) : DedupState :=
  { s with isComposing := true }

/-- `InputHandler.handleCompositionEnd` (part_001:643): clears the composing
flag; a non-empty commit is emitted unless it duplicates a just-recorded
beforeinput payload (the DOM text-node cleanup has no de-duplication
effect and is not modelled). -/
def handleCompositionEnd (s : DedupState) (data : String) (now : ℚ) : DedupState × List String :=
  let s0 := { s with isComposing := false }
  if data ≠ "" then
    let r := shouldIgnoreCompositionEnd s0 data now
    if r.1 then (r.2, [])
    else (recordCompositionData r.2 data now, [data])
  else (s0, [])

/-- `InputHandler.handlePaste` (part_001:521), after extracting non-empty
clipboard text. -/
def handlePaste (bracketedPaste : Bool) (s : DedupState) (text : String) (now : ℚ) :
    DedupState × List String :=
  if text = "" then (s, [])
  else
    let r := shouldIgnorePasteEvent s text .paste now
    if r.1 then (r.2, [])
    else (recordPasteData r.2 text .paste now, [emitPasteData bracketedPaste text])

/-- Timed input deliveries relevant to the cross-path de-duplication claims. -/
inductive InputEv where
  | compEnd (data : String) (t : ℚ)
  | beforeInput (ty : InputType) (data : String) (t : ℚ)
deriving Repr

def inputStep (bracketedPaste : Bool) (s : DedupState) : InputEv → DedupState × List String
  | .compEnd data t => handleCompositionEnd s data t
  | .beforeInput ty data t => handleBeforeInput bracketedPaste s false ty data t

def runInput (bracketedPaste : Bool) (s : DedupState) :
    List InputEv → DedupState × List String
  | [] => (s, [])
  | e :: es =>
    let r1 := inputStep bracketedPaste s e
    let r2 := runInput bracketedPaste r1.1 es
    (r2.1, r1.2 ++ r2.2)

/-- The USB HID `Key` enum values referenced by `KEY_MAP` (part_001:25).
The numeric values of the enum (defined in the engine bindings) are never
inspected by `InputHandler`, so an inductive type is a faithful model. -/
inductive Key where
  | A | B | C | D | E | F | G | H | I | J | K | L | M
  | N | O | P | Q | R | S | T | U | V | W | X | Y | Z
  | ONE | TWO | THREE | FOUR | FIVE | SIX | SEVEN | EIGHT | NINE | ZERO
  | ENTER | ESCAPE | BACKSPACE | TAB | SPACE
  | MINUS | EQUAL | BRACKET_LEFT | BRACKET_RIGHT | BACKSLASH
  | SEMICOLON | QUOTE | GRAVE | COMMA | PERIOD | SLASH
  | CAPS_LOCK
  | F1 | F2 | F3 | F4 | F5 | F6 | F7 | F8 | F9 | F10 | F11 | F12
  | PRINT_SCREEN | SCROLL_LOCK | PAUSE
  | INSERT | HOME | PAGE_UP | DELETE | END | PAGE_DOWN
  | RIGHT | LEFT | DOWN | UP
  | NUM_LOCK | KP_DIVIDE | KP_MULTIPLY | KP_MINUS | KP_PLUS | KP_ENTER
  | KP_1 | KP_2 | KP_3 | KP_4 | KP_5 | KP_6 | KP_7 | KP_8 | KP_9 | KP_0
  | KP_PERIOD
  | INTL_BACKSLASH | CONTEXT_MENU
  | F13 | F14 | F15 | F16 | F17 | F18 | F19 | F20 | F21 | F22 | F23 | F24
deriving Repr, DecidableEq

/-- `KEY_MAP` (part_001:25): `KeyboardEvent.code` → USB HID key;
`InputHandler.mapKeyCode` returns `null` for unmapped codes. -/
def keyMap : String → Option Key
  | "KeyA" => some .A
  | "KeyB" => some .B
  | "KeyC" => some .C
  | "KeyD" => some .D
  | "KeyE" => some .E
  | "KeyF" => some .F
  | "KeyG" => some .G
  | "KeyH" => some .H
  | "KeyI" => some .I
  | "KeyJ" => some .J
  | "KeyK" => some .K
  | "KeyL" => some .L
  | "KeyM" => some .M
  | "KeyN" => some .N
  | "KeyO" => some .O
  | "KeyP" => some .P
  | "KeyQ" => some .Q
  | "KeyR" => some .R
  | "KeyS" => some .S
  | "KeyT" => some .T
  | "KeyU" => some .U
  | "KeyV" => some .V
  | "KeyW" => some .W
  | "KeyX" => some .X
  | "KeyY" => some .Y
  | "KeyZ" => some .Z
  | "Digit1" => some .ONE
  | "Digit2" => some .TWO
  | "Digit3" => some .THREE
  | "Digit4" => some .FOUR
  | "Digit5" => some .FIVE
  | "Digit6" => some .SIX
  | "Digit7" => some .SEVEN
  | "Digit8" => some .EIGHT
  | "Digit9" => some .NINE
  | "Digit0" => some .ZERO
  | "Enter" => some .ENTER
  | "Escape" => some .ESCAPE
  | "Backspace" => some .BACKSPACE
  | "Tab" => some .TAB
  | "Space" => some .SPACE
  | "Minus" => some .MINUS
  | "Equal" => some .EQUAL
  | "BracketLeft" => some .BRACKET_LEFT
  | "BracketRight" => some .BRACKET_RIGHT
  | "Backslash" => some .BACKSLASH
  | "Semicolon" => some .SEMICOLON
  | "Quote" => some .QUOTE
  | "Backquote" => some .GRAVE
  | "Comma" => some .COMMA
  | "Period" => some .PERIOD
  | "Slash" => some .SLASH
  | "CapsLock" => some .CAPS_LOCK
  | "F1" => some .F1
  | "F2" => some .F2
  | "F3" => some .F3
  | "F4" => some .F4
  | "F5" => some .F5
  | "F6" => some .F6
  | "F7" => some .F7
  | "F8" => some .F8
  | "F9" => some .F9
  | "F10" => some .F10
  | "F11" => some .F11
  | "F12" => some .F12
  | "PrintScreen" => some .PRINT_SCREEN
  | "ScrollLock" => some .SCROLL_LOCK
  | "Pause" => some .PAUSE
  | "Insert" => some .INSERT
  | "Home" => some .HOME
  | "PageUp" => some .PAGE_UP
  | "Delete" => some .DELETE
  | "End" => some .END
  | "PageDown" => some .PAGE_DOWN
  | "ArrowRight" => some .RIGHT
  | "ArrowLeft" => some .LEFT
  | "ArrowDown" => some .DOWN
  | "ArrowUp" => some .UP
  | "NumLock" => some .NUM_LOCK
  | "NumpadDivide" => some .KP_DIVIDE
  | "NumpadMultiply" => some .KP_MULTIPLY
  | "NumpadSubtract" => some .KP_MINUS
  | "NumpadAdd" => some .KP_PLUS
  | "NumpadEnter" => some .KP_ENTER
  | "Numpad1" => some .KP_1
  | "Numpad2" => some .KP_2
  | "Numpad3" => some .KP_3
  | "Numpad4" => some .KP_4
  | "Numpad5" => some .KP_5
  | "Numpad6" => some .KP_6
  | "Numpad7" => some .KP_7
  | "Numpad8" => some .KP_8
  | "Numpad9" => some .KP_9
  | "Numpad0" => some .KP_0
  | "NumpadDecimal" => some .KP_PERIOD
  | "IntlBackslash" => some .INTL_BACKSLASH
  | "ContextMenu" => some .CONTEXT_MENU
  | "F13" => some .F13
  | "F14" => some .F14
  | "F15" => some .F15
  | "F16" => some .F16
  | "F17" => some .F17
  | "F18" => some .F18
  | "F19" => some .F19
  | "F20" => some .F20
  | "F21" => some .F21
  | "F22" => some .F22
  | "F23" => some .F23
  | "F24" => some .F24
  | _ => none

/-- The fields of a DOM `KeyboardEvent` that `handleKeyDown` reads. -/
structure KeyEvent where
  code : String
  key : String
  shiftKey : Bool
  ctrlKey : Bool
  altKey : Bool
  metaKey : Bool
  keyCode : ℕ
  evComposing : Bool
deriving Repr, DecidableEq

/-- The `Mods` bitmask (engine bindings), modelled as one flag per modifier;
`InputHandler` only builds it by OR-ing distinct flags and compares it for
equality, so the representation is interchangeable with the numeric mask. -/
structure Mods where
  shift : Bool
  ctrl : Bool
  alt : Bool
  super : Bool
deriving Repr, DecidableEq

def modsNone : Mods := ⟨false, false, false, false⟩

def modsShift : Mods := ⟨true, false, false, false⟩

/-- `InputHandler.extractModifiers` (part_001:291). -/
def extractModifiers (e : KeyEvent) : Mods :=
  ⟨e.shiftKey, e.ctrlKey, e.altKey, e.metaKey⟩

/-- `InputHandler.isPrintableCharacter` (part_001:311). `event.key.length`
counts UTF-16 units in the browser; Lean code points coincide for the keys
of interest. -/
def isPrintableCharacter (e : KeyEvent) : Bool :=
  if e.ctrlKey && !e.altKey then false
  else if e.altKey && !e.ctrlKey then false
  else if e.metaKey then false
  else decide (e.key.length = 1)

/-- The `switch (key)` of simple special keys in `handleKeyDown`
(part_001:391): the fixed escape sequences sent with no modifier or
shift only. Arrow keys deliberately fall through to the encoder. -/
def simpleOutput : Key → Option String
  | .ENTER => some "\r"
  | .TAB => some "\t"
  | .BACKSPACE => some "\x7F"
  | .ESCAPE => some "\x1B"
  | .HOME => some "\x1B[H"
  | .END => some "\x1B[F"
  | .INSERT => some "\x1B[2~"
  | .DELETE => some "\x1B[3~"
  | .PAGE_UP => some "\x1B[5~"
  | .PAGE_DOWN => some "\x1B[6~"
  | .F1 => some "\x1BOP"
  | .F2 => some "\x1BOQ"
  | .F3 => some "\x1BOR"
  | .F4 => some "\x1BOS"
  | .F5 => some "\x1B[15~"
  | .F6 => some "\x1B[17~"
  | .F7 => some "\x1B[18~"
  | .F8 => some "\x1B[19~"
  | .F9 => some "\x1B[20~"
  | .F10 => some "\x1B[21~"
  | .F11 => some "\x1B[23~"
  | .F12 => some "\x1B[24~"
  | _ => none

/-- The lower-cased ASCII hint passed to the external encoder
(`event.key.length === 1 && event.key.charCodeAt(0) < 128`). -/
def utf8Hint (e : KeyEvent) : Option String :=
  match e.key.data with
  | [c] => if c.toNat < 128 then some e.key.toLower else none
  | _ => none

/-- What `handleKeyDown` decides to do with an event. -/
inductive KeyOutcome where
  | ignored
  | pastePassthrough
  | copyShortcut
  | emit (data : String)
  | encoderRequest (key : Key) (mods : Mods) (utf8 : Option String)
deriving Repr, DecidableEq

/-- `InputHandler.handleKeyDown` (part_001:326), for a handler with no
custom key-event handler and no copy callback installed (the callbacks are
optional constructor arguments). The passive `onKey` notification does not
affect the outcome. The external-encoder branch is represented by the
request it issues (the encoder itself lives in the WASM engine). -/
def handleKeyDown (isComposing : Bool) (e : KeyEvent) : KeyOutcome :=
  if isComposing || e.evComposing || decide (e.keyCode = 229) then .ignored
  else if (e.ctrlKey || e.metaKey) && decide (e.code = "KeyV") then .pastePassthrough
  else if e.metaKey && decide (e.code = "KeyC") then .copyShortcut
  else if isPrintableCharacter e then .emit e.key
  else
    match keyMap e.code with
    | none => .ignored
    | some key =>
      let mods := extractModifiers e
      let simple :=
        if mods = modsNone ∨ mods = modsShift then simpleOutput key else none
      match simple with
      | some out => .emit out
      | none => .encoderRequest key mods (utf8Hint e)

/-- A keydown event for a named non-printable key (its DOM `code` and `key`
coincide for every key in the claimed table), with at most shift held. -/
def mkKeyEvent (code : String) (shift : Bool) : KeyEvent :=
  { code := code, key := code, shiftKey := shift, ctrlKey := false,
    altKey := false, metaKey := false, keyCode := 0, evComposing := false }

/-- The encoding table claimed by the specification: DOM code ↦ emitted
byte sequence. -/
def keyEncodingTable : List (String × String) :=
  [("Enter", "\r"), ("Tab", "\t"), ("Backspace", "\x7F"), ("Escape", "\x1B"),
   ("Home", "\x1B[H"), ("End", "\x1B[F"), ("Insert", "\x1B[2~"),
   ("Delete", "\x1B[3~"), ("PageUp", "\x1B[5~"), ("PageDown", "\x1B[6~"),
   ("F1", "\x1BOP"), ("F2", "\x1BOQ"), ("F3", "\x1BOR"), ("F4", "\x1BOS"),
   ("F5", "\x1B[15~"), ("F6", "\x1B[17~"), ("F7", "\x1B[18~"), ("F8", "\x1B[19~"),
   ("F9", "\x1B[20~"), ("F10", "\x1B[21~"), ("F11", "\x1B[23~"), ("F12", "\x1B[24~")]

end Input

namespace Sel

/-- The cell fields read by the selection code (`GhosttyCell`): the Unicode
codepoint (0 for an empty cell) and the display width (0 marks the
continuation cell of a wide character). -/
structure Cell where
  codepoint : ℕ
  width : ℕ
deriving Repr, DecidableEq

/-- `SelectionCoordinates` (part_000:1136), already normalized. -/
structure Coords where
  startCol : ℕ
  startRow : ℕ
  endCol : ℕ
  endRow : ℕ
deriving Repr, DecidableEq

/-- `String.fromCodePoint` on a non-empty cell; empty cells render as a
space (part_000:1211). -/
def cellChar (c : Cell) : String :=
  if c.codepoint ≠ 0 then String.singleton (Char.ofNat c.codepoint) else " "

/-- The column indices visited by `for (let col = colStart; col <= colEnd)`;
`colEnd` is an integer because a middle row uses `line.length - 1`, which is
−1 on an empty line. -/
def colList (colStart : ℕ) (colEnd : ℤ) : List ℕ :=
  List.range' colStart ((colEnd + 1).toNat - colStart)

/-- The inner column loop of `SelectionManager.getSelection`
(part_000:1204): out-of-range (`!cell`) and zero-width cells are skipped. -/
def rowText (line : List Cell) (colStart : ℕ) (colEnd : ℤ) : String :=
  (colList colStart colEnd).foldl
    (fun acc col =>
      match line.get? col with
      | none => acc
      | some cell => if cell.width = 0 then acc else acc ++ cellChar cell)
    ""

/-- The rows `startRow .. endRow` visited by the outer loop. -/
def rowIndices (c : Coords) : List ℕ :=
  List.range' c.startRow (c.endRow + 1 - c.startRow)

/-- The outer row loop of `SelectionManager.getSelection` (part_000:1197):
a missing line is skipped entirely (`continue`); otherwise the first row is
clipped at `startCol`, the last row at `endCol`, and a newline is appended
after every row but the last. `getLine` is the engine's `getLine(row)`. -/
def getSelectionGo (getLine : ℕ → Option (List Cell)) (c : Coords) :
    List ℕ → String → String
  | [], acc => acc
  | row :: rest, acc =>
    match getLine row with
    | none => getSelectionGo getLine c rest acc
    | some line =>
      let colStart := if row = c.startRow then c.startCol else 0
      let colEnd : ℤ := if row = c.endRow then (c.endCol : ℤ) else (line.length : ℤ) - 1
      getSelectionGo getLine c rest
        (acc ++ rowText line colStart colEnd ++ (if row < c.endRow then "\n" else ""))

/-- `SelectionManager.getSelection` (part_000:1190) on normalized
coordinates. -/
def getSelection (getLine : ℕ → Option (List Cell)) (c : Coords) : String :=
  getSelectionGo getLine c (rowIndices c) ""

/-- Specification-side row join: rows joined by a single newline, with no
trailing newline after the last row. -/
def joinRows : List String → String
  | [] => ""
  | [r] => r
  | r :: rest => r ++ "\n" ++ joinRows rest

/-- Concatenation of the rendered characters of a list of cells. -/
def concatMap (g : Cell → String) : List Cell → String
  | [] => ""
  | x :: xs => g x ++ concatMap g xs

/-- Specification-side row extraction: the sub-range of columns `lo` up to
(exclusive) `hi`, zero-width filler cells skipped, empty cells rendered as a
single space. -/
def specRowString (line : List Cell) (lo hi : ℕ) : String :=
  concatMap cellChar (((line.take hi).drop lo).filter fun c => !decide (c.width = 0))

/-- Specification-side extraction of one row of the range: the first row is
clipped at the start column, the last row at the end column, every other
row is taken in full. -/
def specRowOf (getLine : ℕ → Option (List Cell)) (c : Coords) (row : ℕ) : String :=
  match getLine row with
  | some line =>
    specRowString line (if row = c.startRow then c.startCol else 0)
      (if row = c.endRow then c.endCol + 1 else line.length)
  | none => ""

/-- Specification-side text extraction, following the words of the spec:
walk the normalized range row by row; clip only the first row at the start
column and the last row at the end column, take all other rows in full;
skip zero-width filler cells; render empty cells as a single space; join
the rows with single newlines and no trailing newline. -/
def specSelection (getLine : ℕ → Option (List Cell)) (c : Coords) : String :=
  joinRows ((rowIndices c).map (specRowOf getLine c))

/-- The selection state of `SelectionManager` (part_000:1154): the raw
(unnormalized) endpoints as `(col, row)` pairs, the active-drag flag, and
the previous normalized selection retained for overlay erase. -/
structure SelState where
  selStart : Option (ℕ × ℕ)
  selEnd : Option (ℕ × ℕ)
  isSelecting : Bool
  previousSelection : Option Coords
deriving Repr, DecidableEq

/-- `SelectionManager.hasSelection` (part_000:1230). -/
def hasSelection (s : SelState) : Bool :=
  s.selStart.isSome && s.selEnd.isSome

/-- `SelectionManager.normalizeSelection` (part_000:1558): swap the
endpoints when the selection runs backwards. -/
def normalize (selStart selEnd : Option (ℕ × ℕ)) : Option Coords :=
  match selStart, selEnd with
  | some a, some b =>
    if b.2 < a.2 ∨ (a.2 = b.2 ∧ b.1 < a.1) then some ⟨b.1, b.2, a.1, a.2⟩
    else some ⟨a.1, a.2, b.1, b.2⟩
  | _, _ => none

def normalizeState (s : SelState) : Option Coords :=
  normalize s.selStart s.selEnd

/-- `getSelection()` as called on a manager state: empty string when there
is no selection. -/
def selectionTextOf (getLine : ℕ → Option (List Cell)) (s : SelState) : String :=
  match normalizeState s with
  | some c => getSelection getLine c
  | none => ""

/-- `SelectionManager.clearSelection` (part_000:1244): remembers the
normalized range as `previousSelection`, drops the endpoints, requests a
redraw — and fires no selection-change notification. The second component
counts `selectionChangedEmitter.fire()` calls. -/
def clearSelection (s : SelState) : SelState × ℕ :=
  if !hasSelection s then (s, 0)
  else
    ({ selStart := none, selEnd := none, isSelecting := false,
       previousSelection := normalizeState s }, 0)

/-- `SelectionManager.selectAll` (part_000:1261): select the whole grid and
fire (`cols`/`rows` are the engine dimensions, both positive). -/
def selectAll (cols rows : ℕ) (s : SelState) : SelState × ℕ :=
  ({ s with selStart := some (0, 0), selEnd := some (cols - 1, rows - 1) }, 1)

/-- The `while (endCol >= dims.cols)` wrap loop of `SelectionManager.select`
(part_000:1284). The source assumes `cols > 0` (a zero-column grid would
not terminate); the guard makes that explicit. -/
def wrapEnd (cols : ℕ) (endCol : ℤ) (endRow : ℕ) : ℤ × ℕ :=
  if h : 0 < cols ∧ (cols : ℤ) ≤ endCol then
    wrapEnd cols (endCol - cols) (endRow + 1)
  else (endCol, endRow)
termination_by endCol.toNat
decreasing_by omega

/-- `SelectionManager.select` (part_000:1273): clamp the anchor, wrap the
end position across rows, clamp it, store and fire. The xterm-compatible
arguments are non-negative, so `Math.max(0, ·)` on the inputs is implicit
in the use of `ℕ`. -/
def select (cols rows : ℕ) (column row length : ℕ) (s : SelState) : SelState × ℕ :=
  let row' := min row (rows - 1)
  let column' := min column (cols - 1)
  let e := wrapEnd cols ((column' : ℤ) + (length : ℤ) - 1) row'
  let endRow := min e.2 (rows - 1)
  let endCol := (max 0 (min e.1 ((cols : ℤ) - 1))).toNat
  ({ s with selStart := some (column', row'), selEnd := some (endCol, endRow) }, 1)

/-- `SelectionManager.selectLines` (part_000:1303): clamp both rows, swap
into order, select the full lines and fire. -/
def selectLines (cols rows : ℕ) (a b : ℤ) (s : SelState) : SelState × ℕ :=
  let start := (max 0 (min a ((rows : ℤ) - 1))).toNat
  let stop := (max 0 (min b ((rows : ℤ) - 1))).toNat
  let p := if stop < start then (stop, start) else (start, stop)
  ({ s with selStart := some (0, p.1), selEnd := some (cols - 1, p.2) }, 1)

/-- The `mousedown` handler (part_000:1398): clear any existing selection,
then start a fresh anchor=active selection; no notification fires. -/
def press (cell : ℕ × ℕ) (s : SelState) : SelState × ℕ :=
  let s1 := if hasSelection s then (clearSelection s).1 else s
  ({ s1 with selStart := some cell, selEnd := some cell, isSelecting := true }, 0)

/-- The `mousemove` handler (part_000:1424): while dragging, remember the
previous normalized range and move the active endpoint; no notification. -/
def move (cell : ℕ × ℕ) (s : SelState) : SelState × ℕ :=
  if s.isSelecting then
    ({ s with previousSelection := normalizeState s, selEnd := some cell }, 0)
  else (s, 0)

/-- The document-level `mouseup` handler (part_000:1445): end the drag;
copy and fire exactly when the extracted text is non-empty. -/
def release (getLine : ℕ → Option (List Cell)) (s : SelState) : SelState × ℕ :=
  if s.isSelecting then
    let s1 := { s with isSelecting := false }
    if selectionTextOf getLine s1 ≠ "" then (s1, 1) else (s1, 0)
  else (s, 0)

/-- The word-character test of `getWordAtCell` (part_000:1581):
`/[\w-]/` on the cell's character; an empty or missing cell is not a word
character. -/
def wordChar (ch : Char) : Bool :=
  ch.isAlphanum || ch = '_' || ch = '-'

def isWordCell : Option Cell → Bool
  | none => false
  | some c => decide (c.codepoint ≠ 0) && wordChar (Char.ofNat c.codepoint)

/-- The backward scan of `getWordAtCell` (part_000:1592). -/
def wordStart (line : List Cell) : ℕ → ℕ
  | 0 => 0
  | c + 1 => if isWordCell (line.get? c) then wordStart line c else c + 1

/-- The forward scan of `getWordAtCell` (part_000:1597). -/
def wordEnd (line : List Cell) (c : ℕ) : ℕ :=
  if h : c + 1 < line.length ∧ isWordCell (line.get? (c + 1)) then
    wordEnd line (c + 1)
  else c
termination_by line.length - c
decreasing_by omega

/-- `SelectionManager.getWordAtCell` (part_000:1576). -/
def getWordAtCell (getLine : ℕ → Option (List Cell)) (col row : ℕ) : Option (ℕ × ℕ) :=
  match getLine row with
  | none => none
  | some line =>
    if isWordCell (line.get? col) then some (wordStart line col, wordEnd line col)
    else none

/-- The `dblclick` handler (part_000:1459): select the word under the cell
(single row); copy and fire exactly when the extracted text is non-empty;
on a non-word cell nothing happens. -/
def doubleClick (getLine : ℕ → Option (List Cell)) (cell : ℕ × ℕ) (s : SelState) :
    SelState × ℕ :=
  match getWordAtCell getLine cell.1 cell.2 with
  | none => (s, 0)
  | some w =>
    let s1 := { s with selStart := some (w.1, cell.2), selEnd := some (w.2, cell.2) }
    if selectionTextOf getLine s1 ≠ "" then (s1, 1) else (s1, 0)

end Sel

/-! ## Helper lemmas -/

theorem clampOffset_nonneg (L : ℕ) (x : ℚ) : 0 ≤ Scroll.clampOffset L x :=
  le_max_left 0 _

theorem clampOffset_le (L : ℕ) (x : ℚ) : Scroll.clampOffset L x ≤ (L : ℚ) := by
  unfold Scroll.clampOffset
  exact max_le (by positivity) (min_le_left _ _)

theorem clampOffset_mono (L : ℕ) {x y : ℚ} (h : x ≤ y) :
    Scroll.clampOffset L x ≤ Scroll.clampOffset L y := by
  unfold Scroll.clampOffset
  exact max_le_max le_rfl (min_le_min le_rfl h)

theorem clampOffset_of_mem (L : ℕ) {x : ℚ} (h0 : 0 ≤ x) (hL : x ≤ (L : ℚ)) :
    Scroll.clampOffset L x = x := by
  unfold Scroll.clampOffset
  rw [min_eq_right hL, max_eq_right h0]

theorem moveRatio_bounds {d : ℚ} (hd : d = 0 ∨ (50 : ℚ) / 3 ≤ d) :
    0 ≤ Scroll.moveRatio d ∧ Scroll.moveRatio d ≤ 1 := by
  rcases hd with h | h
  · subst h; norm_num [Scroll.moveRatio]
  · have hf : (1 : ℚ) ≤ d / 1000 * 60 := by linarith
    have hf0 : (0 : ℚ) < d / 1000 * 60 := by linarith
    have h1 : 1 / (d / 1000 * 60) ≤ 1 := by
      rw [div_le_one hf0]; exact hf
    have h0 : (0 : ℚ) ≤ 1 / (d / 1000 * 60) := by positivity
    have hsq : (1 / (d / 1000 * 60)) ^ 2 ≤ 1 := by nlinarith
    have hsq0 : (0 : ℚ) ≤ (1 / (d / 1000 * 60)) ^ 2 := by positivity
    unfold Scroll.moveRatio
    constructor <;> linarith

theorem convex_mem {y t r lo hi : ℚ} (hy0 : lo ≤ y) (hyL : y ≤ hi)
    (ht0 : lo ≤ t) (htL : t ≤ hi) (hr0 : 0 ≤ r) (hr1 : r ≤ 1) :
    lo ≤ y + (t - y) * r ∧ y + (t - y) * r ≤ hi := by
  constructor <;> nlinarith

theorem animateTick_inv {L : ℕ} {d : ℚ} (hd : d = 0 ∨ (50 : ℚ) / 3 ≤ d)
    {s : Scroll.ScrollState} (hs : Scroll.ScrollInv L s) :
    Scroll.ScrollInv L (Scroll.animateTick d s).1 := by
  obtain ⟨hy0, hyL, ht0, htL⟩ := hs
  obtain ⟨hr0, hr1⟩ := moveRatio_bounds hd
  unfold Scroll.animateTick
  split
  · exact ⟨hy0, hyL, ht0, htL⟩
  · dsimp only
    split
    · exact ⟨ht0, htL, ht0, htL⟩
    · obtain ⟨k1, k2⟩ := convex_mem hy0 hyL ht0 htL hr0 hr1
      exact ⟨k1, k2, ht0, htL⟩

theorem smoothScrollTo_inv {L : ℕ} {d : ℚ} (hd : d = 0 ∨ (50 : ℚ) / 3 ≤ d)
    {s : Scroll.ScrollState} (hs : Scroll.ScrollInv L s) (t : ℚ) :
    Scroll.ScrollInv L (Scroll.smoothScrollTo L d s t).1 := by
  obtain ⟨hy0, hyL, _, _⟩ := hs
  unfold Scroll.smoothScrollTo
  split
  · exact ⟨clampOffset_nonneg L t, clampOffset_le L t,
      clampOffset_nonneg L t, clampOffset_le L t⟩
  · dsimp only
    split
    · exact ⟨hy0, hyL, clampOffset_nonneg L t, clampOffset_le L t⟩
    · exact animateTick_inv hd ⟨hy0, hyL, clampOffset_nonneg L t, clampOffset_le L t⟩

/-! ## C2 — clamping of every scroll operation -/

/-- **C2.** For every scroll operation (`scrollLines`, `scrollPages`,
`scrollToTop`, `scrollToBottom`, `scrollToLine`, the wheel-driven
`smoothScrollTo`, and its animation frames) and every argument — including
arbitrarily out-of-range targets — the viewport offset (and the animation
target) after the operation stays within `[0, scrollbackLength]`. The
smooth-scroll duration is the configured one (`0`, or at least one
animation frame `1000/60 ms`; the source default is `100`). -/
theorem scroll_clamping (L rows : ℕ) (d : ℚ) (hd : d = 0 ∨ (50 : ℚ) / 3 ≤ d)
    (s : Scroll.ScrollState) (hs : Scroll.ScrollInv L s) (op : Scroll.ScrollOp) :
    Scroll.ScrollInv L (Scroll.applyScrollOp L rows d s op).1 := by
  obtain ⟨hy0, hyL, ht0, htL⟩ := hs
  cases op with
  | lines a =>
    simp only [Scroll.applyScrollOp, Scroll.scrollLines]
    split
    · exact ⟨clampOffset_nonneg L _, clampOffset_le L _, ht0, htL⟩
    · exact ⟨hy0, hyL, ht0, htL⟩
  | pages a =>
    simp only [Scroll.applyScrollOp, Scroll.scrollPages, Scroll.scrollLines]
    split
    · exact ⟨clampOffset_nonneg L _, clampOffset_le L _, ht0, htL⟩
    · exact ⟨hy0, hyL, ht0, htL⟩
  | toTop =>
    simp only [Scroll.applyScrollOp, Scroll.scrollToTop]
    split
    · exact ⟨by positivity, le_rfl, ht0, htL⟩
    · exact ⟨hy0, hyL, ht0, htL⟩
  | toBottom =>
    simp only [Scroll.applyScrollOp, Scroll.scrollToBottom]
    split
    · exact ⟨le_rfl, by positivity, ht0, htL⟩
    · exact ⟨hy0, hyL, ht0, htL⟩
  | toLine n =>
    simp only [Scroll.applyScrollOp, Scroll.scrollToLine]
    split
    · exact ⟨clampOffset_nonneg L _, clampOffset_le L _, ht0, htL⟩
    · exact ⟨hy0, hyL, ht0, htL⟩
  | smoothTo t => exact smoothScrollTo_inv hd ⟨hy0, hyL, ht0, htL⟩ t
  | tick => exact animateTick_inv hd ⟨hy0, hyL, ht0, htL⟩

/-- Witness for C2: scrolling −1000 lines with 10 lines of scrollback from
the live edge keeps the offset in `[0, 10]` (it clamps to 10). -/
theorem scroll_clamping_witness :
    ((100 : ℚ) = 0 ∨ (50 : ℚ) / 3 ≤ 100) ∧
      Scroll.ScrollInv 10 ⟨0, 0, false⟩ ∧
      Scroll.ScrollInv 10
        (Scroll.applyScrollOp 10 24 100 ⟨0, 0, false⟩ (.lines (-1000))).1 :=
  ⟨Or.inr (by norm_num),
   by constructor <;> norm_num [Scroll.ScrollInv],
   scroll_clamping 10 24 100 (Or.inr (by norm_num)) _
     (by constructor <;> norm_num [Scroll.ScrollInv]) (.lines (-1000))⟩

/-! ## C4 — notification discipline of the immediate-mode calls -/

/-- **C4.** Repeating `scrollToBottom` at offset 0 fires no notification; an
immediate-mode `scrollLines` call fires exactly one notification carrying
the resulting offset when the clamped result differs from the current
offset, and none otherwise; and the concrete sequence "up 5, up 3, down 2"
from the live edge with 10 lines of scrollback notifies exactly 5, 8, 6 in
order. -/
theorem scroll_notification_discipline :
    (∀ s : Scroll.ScrollState, s.viewportY = 0 → Scroll.scrollToBottom s = (s, []))
    ∧ (∀ (L : ℕ) (s : Scroll.ScrollState) (amount : ℚ),
        (Scroll.scrollLines L s amount).2 =
          if (Scroll.scrollLines L s amount).1.viewportY ≠ s.viewportY
          then [(Scroll.scrollLines L s amount).1.viewportY] else [])
    ∧ (Scroll.runScrollOps 10 24 100 ⟨0, 0, false⟩
        [.lines (-5), .lines (-3), .lines 2]).2 = [5, 8, 6] := by
  refine ⟨?_, ?_, ?_⟩
  · intro s h
    unfold Scroll.scrollToBottom
    simp [h]
  · intro L s amount
    unfold Scroll.scrollLines
    dsimp only
    split
    · next h => simp [h]
    · next h => simp [h]
  · norm_num [Scroll.runScrollOps, Scroll.applyScrollOp, Scroll.scrollLines,
      Scroll.clampOffset]

/-- Witness for C4: a second `scrollToBottom` at offset 0 (while an old
animation target is still recorded) fires nothing. -/
theorem scroll_notification_discipline_witness :
    (⟨0, 3, true⟩ : Scroll.ScrollState).viewportY = 0 ∧
      Scroll.scrollToBottom ⟨0, 3, true⟩ = (⟨0, 3, true⟩, []) :=
  ⟨rfl, scroll_notification_discipline.1 ⟨0, 3, true⟩ rfl⟩

/-! ## C5 — live-tail snap on write -/

/-- **C5.** When `write` delivers output while the offset is greater than 0,
the offset is forced synchronously (no animation is involved) back to 0 and
exactly one scroll notification fires, carrying 0. -/
theorem write_live_tail_snap (s : Scroll.ScrollState) (h : 0 < s.viewportY) :
    (Scroll.writeScrollStep s).1.viewportY = 0 ∧
      (Scroll.writeScrollStep s).2 = [(0 : ℚ)] := by
  have hne : s.viewportY ≠ 0 := ne_of_gt h
  unfold Scroll.writeScrollStep Scroll.scrollToBottom
  simp [hne]

/-- Witness for C5 at offset 5. -/
theorem write_live_tail_snap_witness :
    (0 : ℚ) < (⟨5, 5, false⟩ : Scroll.ScrollState).viewportY ∧
      (Scroll.writeScrollStep ⟨5, 5, false⟩).1.viewportY = 0 ∧
      (Scroll.writeScrollStep ⟨5, 5, false⟩).2 = [(0 : ℚ)] :=
  ⟨by norm_num, write_live_tail_snap ⟨5, 5, false⟩ (by norm_num)⟩

/-! ## C3 — smooth-scroll convergence -/

/-- **C3 counterexample.** The claim quantifies over every non-zero
smooth-scroll duration. With duration 10 ms (below one 60 fps frame,
`framesForDuration = 0.6`) the move ratio `1 − (1/0.6)² = −16/9` is
negative: with 10 lines of scrollback, a single `smoothScrollTo(1000)` from
offset 0 clamps the target to 10, yet the first animation frame — run
synchronously by `smoothScrollTo` — lands the offset at −160/9 and fires a
notification of −18, outside `[0, 10]` and moving away from the target, so
the offset sequence is neither monotone toward the target nor free of
overshoot. -/
theorem smooth_scroll_convergence_cex :
    (Scroll.smoothScrollTo 10 10 ⟨0, 0, false⟩ 1000).1.viewportY = -160 / 9 ∧
      (Scroll.smoothScrollTo 10 10 ⟨0, 0, false⟩ 1000).1.viewportY < 0 ∧
      (Scroll.smoothScrollTo 10 10 ⟨0, 0, false⟩ 1000).2 = [(-18 : ℚ)] := by
  norm_num [Scroll.smoothScrollTo, Scroll.animateTick, Scroll.clampOffset,
    Scroll.moveRatio]

theorem animateTick_spec {L : ℕ} {d : ℚ} (hd : (50 : ℚ) / 3 < d)
    {s : Scroll.ScrollState} (hs : Scroll.SmoothInv L s) :
    Scroll.SmoothInv L (Scroll.animateTick d s).1 ∧
    s.viewportY ≤ (Scroll.animateTick d s).1.viewportY ∧
    (Scroll.animateTick d s).1.targetViewportY = s.targetViewportY ∧
    ((Scroll.animateTick d s).2 = [] ∨
      (Scroll.animateTick d s).2 =
        [((⌊(Scroll.animateTick d s).1.viewportY⌋ : ℤ) : ℚ)]) := by
  obtain ⟨h0, h1, h2, h3⟩ := hs
  obtain ⟨hr0, hr1⟩ := moveRatio_bounds (Or.inr hd.le)
  unfold Scroll.animateTick
  split
  · exact ⟨⟨h0, h1, h2, h3⟩, le_rfl, rfl, Or.inl rfl⟩
  · next ha =>
    dsimp only
    split
    · exact ⟨⟨le_trans h0 h1, le_rfl, h2, fun _ => rfl⟩, h1, rfl, Or.inr rfl⟩
    · have hy' : s.viewportY ≤
          s.viewportY + (s.targetViewportY - s.viewportY) * Scroll.moveRatio d := by
        nlinarith
      have hy'' : s.viewportY + (s.targetViewportY - s.viewportY) * Scroll.moveRatio d ≤
          s.targetViewportY := by
        nlinarith
      exact ⟨⟨le_trans h0 hy', hy'', h2, fun hf => absurd hf ha⟩, hy', rfl, Or.inr rfl⟩

theorem smoothStep_spec {L : ℕ} {d : ℚ} (hd : (50 : ℚ) / 3 < d)
    {s : Scroll.ScrollState} (hs : Scroll.SmoothInv L s) (e : Scroll.SmoothEv)
    (he : ∀ t, e = .retarget t → s.targetViewportY ≤ Scroll.clampOffset L t) :
    Scroll.SmoothInv L (Scroll.smoothStep L d s e).1 ∧
    s.viewportY ≤ (Scroll.smoothStep L d s e).1.viewportY ∧
    (Scroll.smoothStep L d s e).1.targetViewportY =
      (match e with
       | .retarget t => Scroll.clampOffset L t
       | .tick => s.targetViewportY) ∧
    ((Scroll.smoothStep L d s e).2 = [] ∨
      (Scroll.smoothStep L d s e).2 =
        [((⌊(Scroll.smoothStep L d s e).1.viewportY⌋ : ℤ) : ℚ)]) := by
  cases e with
  | tick => exact animateTick_spec hd hs
  | retarget t =>
    obtain ⟨h0, h1, h2, h3⟩ := hs
    have hT := he t rfl
    have hdne : ¬d = 0 := by
      intro h; rw [h] at hd; norm_num at hd
    cases ha : s.animating with
    | true =>
      have hstep : Scroll.smoothStep L d s (.retarget t) =
          ({ s with targetViewportY := Scroll.clampOffset L t }, []) := by
        simp [Scroll.smoothStep, Scroll.smoothScrollTo, if_neg hdne, ha]
      rw [hstep]
      refine ⟨⟨h0, le_trans h1 hT, clampOffset_le L t, fun hf => ?_⟩, le_rfl, rfl,
        Or.inl rfl⟩
      simp [ha] at hf
    | false =>
      have hy : s.viewportY = s.targetViewportY := h3 ha
      have hstep : Scroll.smoothStep L d s (.retarget t) =
          Scroll.animateTick d ⟨s.viewportY, Scroll.clampOffset L t, true⟩ := by
        simp [Scroll.smoothStep, Scroll.smoothScrollTo, if_neg hdne, ha]
      rw [hstep]
      have hinv2 : Scroll.SmoothInv L ⟨s.viewportY, Scroll.clampOffset L t, true⟩ :=
        ⟨h0, by rw [hy]; exact hT, clampOffset_le L t, fun hf => by cases hf⟩
      obtain ⟨k1, k2, k3, k4⟩ := animateTick_spec hd hinv2
      exact ⟨k1, k2, k3, k4⟩

theorem runSmooth_cons (L : ℕ) (d : ℚ) (s : Scroll.ScrollState)
    (e : Scroll.SmoothEv) (es : List Scroll.SmoothEv) :
    Scroll.runSmooth L d s (e :: es) =
      ((Scroll.runSmooth L d (Scroll.smoothStep L d s e).1 es).1,
       (Scroll.smoothStep L d s e).2 ++
         (Scroll.runSmooth L d (Scroll.smoothStep L d s e).1 es).2) := rfl

theorem floorQ_mono {a b : ℚ} (h : a ≤ b) : ((⌊a⌋ : ℤ) : ℚ) ≤ ((⌊b⌋ : ℤ) : ℚ) := by
  exact_mod_cast Int.floor_le_floor h

theorem floorQ_nonneg {a : ℚ} (h : 0 ≤ a) : (0 : ℚ) ≤ ((⌊a⌋ : ℤ) : ℚ) := by
  exact_mod_cast Int.floor_nonneg.mpr h

theorem floorQ_le (a : ℚ) : ((⌊a⌋ : ℤ) : ℚ) ≤ a := Int.floor_le a

theorem runSmooth_spec {L : ℕ} {d : ℚ} (hd : (50 : ℚ) / 3 < d) :
    ∀ (evs : List Scroll.SmoothEv) (s : Scroll.ScrollState) (prev : ℚ),
      Scroll.SmoothInv L s →
      s.targetViewportY ≤ Scroll.clampOffset L prev →
      List.Chain' (· ≤ ·) (prev :: Scroll.retargets evs) →
      Scroll.SmoothInv L (Scroll.runSmooth L d s evs).1 ∧
      s.viewportY ≤ (Scroll.runSmooth L d s evs).1.viewportY ∧
      (Scroll.runSmooth L d s evs).1.targetViewportY =
        List.foldl (fun _ t => Scroll.clampOffset L t) s.targetViewportY
          (Scroll.retargets evs) ∧
      List.Chain' (· ≤ ·) (Scroll.runSmooth L d s evs).2 ∧
      (∀ q ∈ (Scroll.runSmooth L d s evs).2,
        ((⌊s.viewportY⌋ : ℤ) : ℚ) ≤ q ∧
        q ≤ ((⌊(Scroll.runSmooth L d s evs).1.viewportY⌋ : ℤ) : ℚ) ∧
        0 ≤ q ∧ q ≤ (L : ℚ)) := by
  intro evs
  induction evs with
  | nil =>
    intro s prev hs hprev hchain
    exact ⟨hs, le_rfl, by simp [Scroll.runSmooth, Scroll.retargets],
      by simp [Scroll.runSmooth], by simp [Scroll.runSmooth]⟩
  | cons e es ih =>
    intro s prev hs hprev hchain
    cases e with
    | tick =>
      obtain ⟨k1, k2, k3, k4⟩ :=
        smoothStep_spec hd hs Scroll.SmoothEv.tick (by intro t h; cases h)
      have hchain' : List.Chain' (· ≤ ·) (prev :: Scroll.retargets es) := by
        simpa [Scroll.retargets] using hchain
      have hprev' : (Scroll.smoothStep L d s .tick).1.targetViewportY ≤
          Scroll.clampOffset L prev := by
        rw [k3]; exact hprev
      obtain ⟨m1, m2, m3, m4, m5⟩ :=
        ih (Scroll.smoothStep L d s .tick).1 prev k1 hprev' hchain'
      rw [runSmooth_cons]
      refine ⟨m1, le_trans k2 m2, ?_, ?_, ?_⟩
      · show (Scroll.runSmooth L d (Scroll.smoothStep L d s .tick).1 es).1.targetViewportY = _
        rw [m3, k3]
        simp [Scroll.retargets]
      · rcases k4 with h4 | h4
        · simpa [h4] using m4
        · rw [h4]
          simp only [List.singleton_append]
          rw [List.chain'_cons']
          refine ⟨fun b hb => ?_, m4⟩
          exact (m5 b (List.mem_of_mem_head? hb)).1
      · intro q hq
        rcases List.mem_append.1 hq with hq1 | hq2
        · rcases k4 with h4 | h4
          · rw [h4] at hq1; cases hq1
          · rw [h4] at hq1
            rcases List.mem_singleton.1 hq1 with rfl
            obtain ⟨i0, i1, i2, _⟩ := k1
            refine ⟨floorQ_mono k2, floorQ_mono m2, floorQ_nonneg i0, ?_⟩
            exact le_trans (floorQ_le _) (le_trans i1 i2)
        · obtain ⟨w1, w2, w3, w4⟩ := m5 q hq2
          exact ⟨le_trans (floorQ_mono k2) w1, w2, w3, w4⟩
    | retarget t =>
      have hpt : prev ≤ t := by
        rw [show Scroll.retargets (.retarget t :: es) = t :: Scroll.retargets es from rfl,
          List.chain'_cons] at hchain
        exact hchain.1
      obtain ⟨k1, k2, k3, k4⟩ := smoothStep_spec hd hs (.retarget t)
        (by intro u hu; cases hu; exact le_trans hprev (clampOffset_mono L hpt))
      have hchain' : List.Chain' (· ≤ ·) (t :: Scroll.retargets es) := by
        rw [show Scroll.retargets (.retarget t :: es) = t :: Scroll.retargets es from rfl,
          List.chain'_cons] at hchain
        exact hchain.2
      have hprev' : (Scroll.smoothStep L d s (.retarget t)).1.targetViewportY ≤
          Scroll.clampOffset L t := by
        rw [k3]
      obtain ⟨m1, m2, m3, m4, m5⟩ :=
        ih (Scroll.smoothStep L d s (.retarget t)).1 t k1 hprev' hchain'
      rw [runSmooth_cons]
      refine ⟨m1, le_trans k2 m2, ?_, ?_, ?_⟩
      · show (Scroll.runSmooth L d (Scroll.smoothStep L d s (.retarget t)).1 es).1.targetViewportY = _
        rw [m3, k3]
        simp [Scroll.retargets]
      · rcases k4 with h4 | h4
        · simpa [h4] using m4
        · rw [h4]
          simp only [List.singleton_append]
          rw [List.chain'_cons']
          refine ⟨fun b hb => ?_, m4⟩
          exact (m5 b (List.mem_of_mem_head? hb)).1
      · intro q hq
        rcases List.mem_append.1 hq with hq1 | hq2
        · rcases k4 with h4 | h4
          · rw [h4] at hq1; cases hq1
          · rw [h4] at hq1
            rcases List.mem_singleton.1 hq1 with rfl
            obtain ⟨i0, i1, i2, _⟩ := k1
            refine ⟨floorQ_mono k2, floorQ_mono m2, floorQ_nonneg i0, ?_⟩
            exact le_trans (floorQ_le _) (le_trans i1 i2)
        · obtain ⟨w1, w2, w3, w4⟩ := m5 q hq2
          exact ⟨le_trans (floorQ_mono k2) w1, w2, w3, w4⟩

theorem runSmooth_settled (L : ℕ) (d : ℚ) (s : Scroll.ScrollState)
    (h : s.animating = false) (k : ℕ) :
    Scroll.runSmooth L d s (List.replicate k .tick) = (s, []) := by
  induction k with
  | zero => simp [Scroll.runSmooth]
  | succ k ih =>
    have hstep : Scroll.smoothStep L d s .tick = (s, []) := by
      simp [Scroll.smoothStep, Scroll.animateTick, h]
    rw [List.replicate_succ, runSmooth_cons, hstep]
    simp [ih]

theorem settled_eq {s : Scroll.ScrollState} (hy : s.viewportY = s.targetViewportY)
    (ha : s.animating = false) :
    s = ⟨s.targetViewportY, s.targetViewportY, false⟩ := by
  obtain ⟨y, t, a⟩ := s
  dsimp at hy ha ⊢
  rw [hy, ha]

theorem ticks_settle {L : ℕ} {d : ℚ} (hd : (50 : ℚ) / 3 < d) :
    ∀ (n : ℕ) (s : Scroll.ScrollState),
      Scroll.SmoothInv L s →
      (s.targetViewportY - s.viewportY) * Scroll.shrinkFactor d ^ n < 1 / 100 →
      (Scroll.runSmooth L d s (List.replicate (n + 1) .tick)).1 =
        ⟨s.targetViewportY, s.targetViewportY, false⟩ := by
  intro n
  induction n with
  | zero =>
    intro s hs hsmall
    obtain ⟨h0, h1, h2, h3⟩ := hs
    simp only [pow_zero, mul_one] at hsmall
    cases ha : s.animating with
    | false =>
      rw [runSmooth_settled L d s ha 1]
      exact settled_eq (h3 ha) ha
    | true =>
      have habs : |s.targetViewportY - s.viewportY| < (100 : ℚ)⁻¹ := by
        rw [← one_div, abs_of_nonneg (by linarith)]; exact hsmall
      have hstep : Scroll.smoothStep L d s .tick =
          (⟨s.targetViewportY, s.targetViewportY, false⟩,
           [((⌊s.targetViewportY⌋ : ℤ) : ℚ)]) := by
        simp [Scroll.smoothStep, Scroll.animateTick, ha, habs]
      rw [show List.replicate 1 Scroll.SmoothEv.tick = [Scroll.SmoothEv.tick] from rfl,
        runSmooth_cons, hstep]
      simp [Scroll.runSmooth]
  | succ n ih =>
    intro s hs hsmall
    obtain ⟨h0, h1, h2, h3⟩ := hs
    cases ha : s.animating with
    | false =>
      rw [runSmooth_settled L d s ha (n + 2)]
      exact settled_eq (h3 ha) ha
    | true =>
      by_cases hsnap : |s.targetViewportY - s.viewportY| < (100 : ℚ)⁻¹
      · have hstep : Scroll.smoothStep L d s .tick =
            (⟨s.targetViewportY, s.targetViewportY, false⟩,
             [((⌊s.targetViewportY⌋ : ℤ) : ℚ)]) := by
          simp [Scroll.smoothStep, Scroll.animateTick, ha, hsnap]
        rw [List.replicate_succ, runSmooth_cons, hstep]
        rw [runSmooth_settled L d _ rfl (n + 1)]
      · have hstep : Scroll.smoothStep L d s .tick =
            (⟨s.viewportY + (s.targetViewportY - s.viewportY) * Scroll.moveRatio d,
              s.targetViewportY, s.animating⟩,
             [((⌊s.viewportY + (s.targetViewportY - s.viewportY) * Scroll.moveRatio d⌋ : ℤ) : ℚ)]) := by
          simp [Scroll.smoothStep, Scroll.animateTick, ha, hsnap]
        obtain ⟨hr0, hr1⟩ := moveRatio_bounds (Or.inr hd.le)
        have hinv1 : Scroll.SmoothInv L
            ⟨s.viewportY + (s.targetViewportY - s.viewportY) * Scroll.moveRatio d,
              s.targetViewportY, s.animating⟩ := by
          unfold Scroll.SmoothInv
          dsimp only
          refine ⟨by nlinarith, by nlinarith, h2, fun hf => ?_⟩
          rw [ha] at hf; cases hf
        have hsmall1 :
            (s.targetViewportY -
                (s.viewportY + (s.targetViewportY - s.viewportY) * Scroll.moveRatio d)) *
              Scroll.shrinkFactor d ^ n < 1 / 100 := by
          have hre : s.targetViewportY -
              (s.viewportY + (s.targetViewportY - s.viewportY) * Scroll.moveRatio d) =
              (s.targetViewportY - s.viewportY) * Scroll.shrinkFactor d := by
            have : Scroll.moveRatio d = 1 - Scroll.shrinkFactor d := rfl
            rw [this]; ring
          rw [hre, mul_assoc, ← pow_succ']
          exact hsmall
        have := ih _ hinv1 hsmall1
        rw [List.replicate_succ, runSmooth_cons, hstep]
        exact this

theorem runSmooth_append (L : ℕ) (d : ℚ) (s : Scroll.ScrollState)
    (l1 l2 : List Scroll.SmoothEv) :
    Scroll.runSmooth L d s (l1 ++ l2) =
      ((Scroll.runSmooth L d (Scroll.runSmooth L d s l1).1 l2).1,
       (Scroll.runSmooth L d s l1).2 ++
         (Scroll.runSmooth L d (Scroll.runSmooth L d s l1).1 l2).2) := by
  induction l1 generalizing s with
  | nil => simp [Scroll.runSmooth]
  | cons e es ih =>
    rw [List.cons_append, runSmooth_cons, ih, runSmooth_cons]
    simp [List.append_assoc]

theorem retargets_replicate_tick (k : ℕ) :
    Scroll.retargets (List.replicate k .tick) = [] := by
  induction k with
  | zero => rfl
  | succ k ih => rw [List.replicate_succ]; simpa [Scroll.retargets] using ih

/-- **C3 (amended).** For every smooth-scroll duration of more than one
60 fps frame (`1000/60 ms` — the source default is 100 ms; durations below
one frame make the easing ratio negative, see the counterexample), starting
settled at offset `y0 ∈ [0, scrollbackLength]`: any interleaving of
`smoothScrollTo` calls with nondecreasing targets and animation frames,
followed by enough animation frames, ends settled exactly at the last
requested clamped target (`y0` if there was no call); the offsets reported
by the scroll notifications are monotone nondecreasing — toward the target
with no overshoot — and never leave `[0, scrollbackLength]`. -/
theorem smooth_scroll_convergence (L : ℕ) (d : ℚ) (hd : (50 : ℚ) / 3 < d)
    (evs : List Scroll.SmoothEv) (n : ℕ) (y0 : ℚ)
    (hy0 : 0 ≤ y0) (hyL : y0 ≤ (L : ℚ))
    (hchain : List.Chain' (· ≤ ·) (y0 :: Scroll.retargets evs))
    (hn : (L : ℚ) * Scroll.shrinkFactor d ^ n < 1 / 100) :
    (Scroll.runSmooth L d ⟨y0, y0, false⟩
        (evs ++ List.replicate (n + 1) .tick)).1.viewportY =
      List.foldl (fun _ t => Scroll.clampOffset L t) y0 (Scroll.retargets evs) ∧
    (Scroll.runSmooth L d ⟨y0, y0, false⟩
        (evs ++ List.replicate (n + 1) .tick)).1.targetViewportY =
      List.foldl (fun _ t => Scroll.clampOffset L t) y0 (Scroll.retargets evs) ∧
    List.Chain' (· ≤ ·)
      (Scroll.runSmooth L d ⟨y0, y0, false⟩ (evs ++ List.replicate (n + 1) .tick)).2 ∧
    (∀ q ∈ (Scroll.runSmooth L d ⟨y0, y0, false⟩
        (evs ++ List.replicate (n + 1) .tick)).2,
      0 ≤ q ∧ q ≤ (L : ℚ)) := by
  have hs0 : Scroll.SmoothInv L ⟨y0, y0, false⟩ := ⟨hy0, le_rfl, hyL, fun _ => rfl⟩
  have hprev0 : (⟨y0, y0, false⟩ : Scroll.ScrollState).targetViewportY ≤
      Scroll.clampOffset L y0 := by
    rw [clampOffset_of_mem L hy0 hyL]
  obtain ⟨m1, m2, m3, m4, m5⟩ := runSmooth_spec hd evs ⟨y0, y0, false⟩ y0 hs0 hprev0 hchain
  obtain ⟨i0, i1, i2, -⟩ := id m1
  -- the tail of animation frames settles at the (unchanged) target
  have hsmall : ((Scroll.runSmooth L d ⟨y0, y0, false⟩ evs).1.targetViewportY -
      (Scroll.runSmooth L d ⟨y0, y0, false⟩ evs).1.viewportY) *
        Scroll.shrinkFactor d ^ n < 1 / 100 := by
    have hdistL : (Scroll.runSmooth L d ⟨y0, y0, false⟩ evs).1.targetViewportY -
        (Scroll.runSmooth L d ⟨y0, y0, false⟩ evs).1.viewportY ≤ (L : ℚ) := by
      linarith
    have hpow : (0 : ℚ) ≤ Scroll.shrinkFactor d ^ n := by
      unfold Scroll.shrinkFactor; positivity
    calc ((Scroll.runSmooth L d ⟨y0, y0, false⟩ evs).1.targetViewportY -
          (Scroll.runSmooth L d ⟨y0, y0, false⟩ evs).1.viewportY) *
            Scroll.shrinkFactor d ^ n
        ≤ (L : ℚ) * Scroll.shrinkFactor d ^ n :=
          mul_le_mul_of_nonneg_right hdistL hpow
      _ < 1 / 100 := hn
  have hfinal := ticks_settle hd n _ m1 hsmall
  have hprev2 : (Scroll.runSmooth L d ⟨y0, y0, false⟩ evs).1.targetViewportY ≤
      Scroll.clampOffset L (L : ℚ) := by
    rw [clampOffset_of_mem L (by positivity) le_rfl]
    exact i2
  have hchain2 : List.Chain' (· ≤ ·)
      ((L : ℚ) :: Scroll.retargets (List.replicate (n + 1) .tick)) := by
    rw [retargets_replicate_tick]
    exact List.chain'_singleton _
  obtain ⟨p1, p2, p3, p4, p5⟩ := runSmooth_spec hd (List.replicate (n + 1) .tick)
    (Scroll.runSmooth L d ⟨y0, y0, false⟩ evs).1 (L : ℚ) m1 hprev2 hchain2
  rw [runSmooth_append]
  have hm3' := m3
  refine ⟨?_, ?_, ?_, ?_⟩
  · show (Scroll.runSmooth L d (Scroll.runSmooth L d ⟨y0, y0, false⟩ evs).1
        (List.replicate (n + 1) .tick)).1.viewportY = _
    rw [hfinal]
    exact hm3'
  · show (Scroll.runSmooth L d (Scroll.runSmooth L d ⟨y0, y0, false⟩ evs).1
        (List.replicate (n + 1) .tick)).1.targetViewportY = _
    rw [hfinal]
    exact hm3'
  · refine List.Chain'.append m4 p4 ?_
    intro x hx y hy
    have hx' := m5 x (List.mem_of_mem_getLast? hx)
    have hy' := p5 y (List.mem_of_mem_head? hy)
    exact le_trans hx'.2.1 hy'.1
  · intro q hq
    rcases List.mem_append.1 hq with h | h
    · exact ⟨(m5 q h).2.2.1, (m5 q h).2.2.2⟩
    · exact ⟨(p5 q h).2.2.1, (p5 q h).2.2.2⟩

/-- Witness for the amended C3: duration 100 ms, 10 lines of scrollback,
two wheel retargets 3 then 7 racing the animation, then three more frames
(`10 · (1/36)² < 1/100`): the run settles at the last clamped target 7 with
monotone in-range notifications. -/
theorem smooth_scroll_convergence_witness :
    ((50 : ℚ) / 3 < 100) ∧
    ((0 : ℚ) ≤ 0) ∧ ((0 : ℚ) ≤ ((10 : ℕ) : ℚ)) ∧
    List.Chain' (· ≤ ·)
      ((0 : ℚ) :: Scroll.retargets [.retarget 3, .tick, .retarget 7]) ∧
    (((10 : ℕ) : ℚ) * Scroll.shrinkFactor 100 ^ 2 < 1 / 100) ∧
    ((Scroll.runSmooth 10 100 ⟨0, 0, false⟩
        ([.retarget 3, .tick, .retarget 7] ++ List.replicate (2 + 1) .tick)).1.viewportY =
      List.foldl (fun _ t => Scroll.clampOffset 10 t) 0
        (Scroll.retargets [.retarget 3, .tick, .retarget 7]) ∧
    (Scroll.runSmooth 10 100 ⟨0, 0, false⟩
        ([.retarget 3, .tick, .retarget 7] ++ List.replicate (2 + 1) .tick)).1.targetViewportY =
      List.foldl (fun _ t => Scroll.clampOffset 10 t) 0
        (Scroll.retargets [.retarget 3, .tick, .retarget 7]) ∧
    List.Chain' (· ≤ ·)
      (Scroll.runSmooth 10 100 ⟨0, 0, false⟩
        ([.retarget 3, .tick, .retarget 7] ++ List.replicate (2 + 1) .tick)).2 ∧
    (∀ q ∈ (Scroll.runSmooth 10 100 ⟨0, 0, false⟩
        ([.retarget 3, .tick, .retarget 7] ++ List.replicate (2 + 1) .tick)).2,
      0 ≤ q ∧ q ≤ ((10 : ℕ) : ℚ))) :=
  ⟨by norm_num, le_rfl, by norm_num,
   by simp [Scroll.retargets]; norm_num,
   by norm_num [Scroll.shrinkFactor],
   smooth_scroll_convergence 10 100 (by norm_num) [.retarget 3, .tick, .retarget 7] 2 0
     le_rfl (by norm_num) (by simp [Scroll.retargets]; norm_num)
     (by norm_num [Scroll.shrinkFactor])⟩

/-! ## C9 — throwing discipline of the mutators -/

/-- **C9 counterexample.** Not every mutating operation throws before
`open()` / after `dispose()`: `scrollToBottom` invoked on a never-opened
terminal returns normally (it silently no-ops, since it performs no
`assertOpen` / engine check), and `scrollToTop` after `dispose()` likewise
returns normally. -/
theorem lifecycle_throw_cex :
    Lifecycle.throws (Lifecycle.scrollToBottom Lifecycle.preOpen) = false ∧
    Lifecycle.throws (Lifecycle.scrollToTop (Lifecycle.disposed 5) 10) = false :=
  ⟨rfl, rfl⟩

/-- **C9 (amended).** `write`, `paste`, `resize` and `clear` throw
synchronously whenever the terminal is not open or is disposed (via
`assertOpen`); `scrollLines` and `scrollPages` throw exactly when the
engine handle is absent (as before `open()` and after `dispose()`); and
`scrollToTop`, `scrollToBottom` and `scrollToLine` never throw — they
silently clamp or no-op instead. -/
theorem lifecycle_throw_discipline :
    (∀ t : Lifecycle.TermState, t.isOpen = false ∨ t.isDisposed = true →
      Lifecycle.throws (Lifecycle.write t) = true ∧
      Lifecycle.throws (Lifecycle.paste t) = true ∧
      Lifecycle.throws (Lifecycle.resize t) = true ∧
      Lifecycle.throws (Lifecycle.clear t) = true) ∧
    (∀ (t : Lifecycle.TermState) (L : ℕ) (a : ℚ),
      Lifecycle.throws (Lifecycle.scrollLines t L a) = !t.hasWasm) ∧
    (∀ (t : Lifecycle.TermState) (L rows : ℕ) (a : ℚ),
      Lifecycle.throws (Lifecycle.scrollPages t L rows a) = !t.hasWasm) ∧
    (∀ (t : Lifecycle.TermState) (L : ℕ) (n : ℚ),
      Lifecycle.throws (Lifecycle.scrollToTop t L) = false ∧
      Lifecycle.throws (Lifecycle.scrollToBottom t) = false ∧
      Lifecycle.throws (Lifecycle.scrollToLine t L n) = false) := by
  refine ⟨?_, ?_, ?_, ?_⟩
  · intro t h
    obtain ⟨e, he⟩ : ∃ e, Lifecycle.assertOpen t = Except.error e := by
      unfold Lifecycle.assertOpen
      rcases h with h | h
      · cases hD : t.isDisposed
        · exact ⟨"Terminal must be opened before use. Call terminal.open(parent) first.",
            by simp [hD, h]⟩
        · exact ⟨"Terminal has been disposed", by simp [hD]⟩
      · exact ⟨"Terminal has been disposed", by simp [h]⟩
    refine ⟨?_, ?_, ?_, ?_⟩ <;>
      simp [Lifecycle.write, Lifecycle.paste, Lifecycle.resize, Lifecycle.clear,
        he, Lifecycle.throws]
  · intro t L a
    cases hW : t.hasWasm <;>
      simp [Lifecycle.scrollLines, hW, Lifecycle.throws]
  · intro t L rows a
    cases hW : t.hasWasm <;>
      simp [Lifecycle.scrollPages, Lifecycle.scrollLines, hW, Lifecycle.throws]
  · intro t L n
    exact ⟨rfl, rfl, rfl⟩

/-- Witness for the amended C9: the pre-open terminal. `write` throws there,
`scrollLines` throws (no engine), `scrollToBottom` does not. -/
theorem lifecycle_throw_discipline_witness :
    (Lifecycle.preOpen.isOpen = false ∨ Lifecycle.preOpen.isDisposed = true) ∧
    (Lifecycle.throws (Lifecycle.write Lifecycle.preOpen) = true ∧
      Lifecycle.throws (Lifecycle.paste Lifecycle.preOpen) = true ∧
      Lifecycle.throws (Lifecycle.resize Lifecycle.preOpen) = true ∧
      Lifecycle.throws (Lifecycle.clear Lifecycle.preOpen) = true) ∧
    Lifecycle.throws (Lifecycle.scrollLines Lifecycle.preOpen 10 (-3)) = !Lifecycle.preOpen.hasWasm ∧
    Lifecycle.throws (Lifecycle.scrollToBottom Lifecycle.preOpen) = false :=
  ⟨Or.inl rfl,
   lifecycle_throw_discipline.1 Lifecycle.preOpen (Or.inl rfl),
   lifecycle_throw_discipline.2.1 Lifecycle.preOpen 10 (-3),
   (lifecycle_throw_discipline.2.2.2 Lifecycle.preOpen 10 0).2.1⟩

/-! ## C1 — cross-path input de-duplication -/

/-- **C1 counterexample.** A `compositionend` commit of `"X"` followed 50 ms
later (inside the ~100 ms window) by a `beforeinput` of type
`insertFromPaste` carrying the same `"X"` emits **two** payloads: the
`insertFromPaste` branch de-duplicates only against the paste-path record
(`lastPasteData`), never against the composition commit, so the claimed
single emission fails for that input type. -/
theorem input_dedup_cex :
    (Input.runInput false Input.initState
      [.compEnd "X" 0, .beforeInput .insertFromPaste "X" 50]).2 = ["X", "X"] := by
  norm_num [Input.runInput, Input.inputStep, Input.handleCompositionEnd,
    Input.handleBeforeInput, Input.shouldIgnoreCompositionEnd,
    Input.shouldIgnorePasteEvent, Input.recordCompositionData,
    Input.recordPasteData, Input.emitPasteData, Input.initState,
    Input.beforeInputIgnoreMs, show ("X" : String) ≠ "" from by decide]

/-- **C1 (amended).** For text `X` (non-empty, no newline conversion)
delivered once as a `compositionend` commit and once as a `beforeinput` of
type `insertText`, with the second delivery within the 100 ms window of the
first, exactly one payload equal to `X` is emitted regardless of delivery
order; delivering the `beforeinput` again only after the window has elapsed
produces a second emission. (The `insertFromPaste` type is excluded: it
de-duplicates only against the paste path, see the counterexample.) -/
theorem input_dedup_amended (X : String) (hX : X ≠ "")
    (hNL : Input.convertNewlines X = X) (t0 t1 t2 : ℚ)
    (hwin : t1 - t0 < 100) (hlate : 100 ≤ t2 - t0) :
    (Input.runInput false Input.initState
        [.compEnd X t0, .beforeInput .insertText X t1]).2 = [X] ∧
    (Input.runInput false Input.initState
        [.beforeInput .insertText X t0, .compEnd X t1]).2 = [X] ∧
    (Input.runInput false Input.initState
        [.compEnd X t0, .beforeInput .insertText X t2]).2 = [X, X] := by
  have hlate' : ¬(t2 - t0 < 100) := not_lt.2 hlate
  refine ⟨?_, ?_, ?_⟩ <;>
    simp [Input.runInput, Input.inputStep, Input.handleCompositionEnd,
      Input.handleBeforeInput, Input.shouldIgnoreCompositionEnd,
      Input.shouldIgnoreBeforeInput, Input.shouldIgnoreBeforeInputFromComposition,
      Input.recordCompositionData, Input.recordBeforeInputData,
      Input.initState, Input.beforeInputIgnoreMs, hX, hNL, hwin, hlate']

/-- Witness for the amended C1 with `X = "你好"`, `t0 = 0`, `t1 = 50`,
`t2 = 150`. -/
theorem input_dedup_amended_witness :
    ("你好" : String) ≠ "" ∧ Input.convertNewlines "你好" = "你好" ∧
    ((50 : ℚ) - 0 < 100) ∧ ((100 : ℚ) ≤ 150 - 0) ∧
    ((Input.runInput false Input.initState
        [.compEnd "你好" 0, .beforeInput .insertText "你好" 50]).2 = ["你好"] ∧
     (Input.runInput false Input.initState
        [.beforeInput .insertText "你好" 0, .compEnd "你好" 50]).2 = ["你好"] ∧
     (Input.runInput false Input.initState
        [.compEnd "你好" 0, .beforeInput .insertText "你好" 150]).2 = ["你好", "你好"]) :=
  ⟨by decide, by decide, by norm_num, by norm_num,
   input_dedup_amended "你好" (by decide) (by decide) 0 50 150 (by norm_num) (by norm_num)⟩

/-! ## C6 — de-duplication record lifecycle -/

/-- **C6 counterexample.** The keydown record is cleared by a check that
does **not** suppress a duplicate: with `"a"` recorded from keydown at time
0, a `beforeinput` dedup check for the different text `"b"` at time 10
(well inside the window) suppresses nothing, yet `lastKeyDownData` is set
to `null` by `shouldIgnoreBeforeInput` unconditionally. -/
theorem dedup_record_cex :
    (Input.shouldIgnoreBeforeInput
        (Input.recordKeyDownData Input.initState "a" 0) "b" 10).1 = false ∧
    (Input.shouldIgnoreBeforeInput
        (Input.recordKeyDownData Input.initState "a" 0) "b" 10).2.lastKeyDownData = none ∧
    (10 : ℚ) - 0 < 100 := by
  refine ⟨?_, rfl, by norm_num⟩
  norm_num [Input.shouldIgnoreBeforeInput, Input.recordKeyDownData,
    Input.initState, Input.beforeInputIgnoreMs]
  decide

/-- **C6 (amended).** The composition-commit, beforeinput and paste records
are cleared exactly when their check suppresses a duplicate, and a record
whose age reaches the window never suppresses; the keydown record, however,
is consumed by the **first** beforeinput dedup check regardless of whether
that check suppressed anything. -/
theorem dedup_record_lifecycle :
    (∀ (s : Input.DedupState) (data : String) (now : ℚ),
      ((Input.shouldIgnoreBeforeInputFromComposition s data now).2).lastCompositionData =
        if (Input.shouldIgnoreBeforeInputFromComposition s data now).1 then none
        else s.lastCompositionData) ∧
    (∀ (s : Input.DedupState) (data : String) (now : ℚ),
      ((Input.shouldIgnoreCompositionEnd s data now).2).lastBeforeInputData =
        if (Input.shouldIgnoreCompositionEnd s data now).1 then none
        else s.lastBeforeInputData) ∧
    (∀ (s : Input.DedupState) (data : String) (src : Input.PasteSrc) (now : ℚ),
      ((Input.shouldIgnorePasteEvent s data src now).2).lastPasteData =
        if (Input.shouldIgnorePasteEvent s data src now).1 then none
        else s.lastPasteData) ∧
    (∀ (s : Input.DedupState) (data : String) (now : ℚ),
      ((Input.shouldIgnoreBeforeInput s data now).2).lastKeyDownData = none) ∧
    (∀ (s : Input.DedupState) (data : String) (now : ℚ),
      100 ≤ now - s.lastCompositionTime →
      (Input.shouldIgnoreBeforeInputFromComposition s data now).1 = false) ∧
    (∀ (s : Input.DedupState) (data : String) (now : ℚ),
      100 ≤ now - s.lastBeforeInputTime →
      (Input.shouldIgnoreCompositionEnd s data now).1 = false) ∧
    (∀ (s : Input.DedupState) (data : String) (src : Input.PasteSrc) (now : ℚ),
      100 ≤ now - s.lastPasteTime →
      (Input.shouldIgnorePasteEvent s data src now).1 = false) ∧
    (∀ (s : Input.DedupState) (data : String) (now : ℚ),
      100 ≤ now - s.lastKeyDownTime →
      (Input.shouldIgnoreBeforeInput s data now).1 = false) := by
  refine ⟨?_, ?_, ?_, ?_, ?_, ?_, ?_, ?_⟩
  · intro s data now
    unfold Input.shouldIgnoreBeforeInputFromComposition
    cases h : s.lastCompositionData with
    | none => simp [h]
    | some prev =>
      cases hb : (decide (now - s.lastCompositionTime < Input.beforeInputIgnoreMs) &&
          decide (prev = data)) <;> simp [hb, h]
  · intro s data now
    unfold Input.shouldIgnoreCompositionEnd
    cases h : s.lastBeforeInputData with
    | none => simp [h]
    | some prev =>
      cases hb : (decide (now - s.lastBeforeInputTime < Input.beforeInputIgnoreMs) &&
          decide (prev = data)) <;> simp [hb, h]
  · intro s data src now
    unfold Input.shouldIgnorePasteEvent
    cases h : s.lastPasteData with
    | none => simp [h]
    | some prev =>
      by_cases hsrc : s.lastPasteSource = some src
      · simp [hsrc, h]
      · cases hb : (decide (now - s.lastPasteTime < Input.beforeInputIgnoreMs) &&
            decide (prev = data)) <;> simp [hsrc, hb, h]
  · intro s data now
    unfold Input.shouldIgnoreBeforeInput
    cases h : s.lastKeyDownData <;> simp [h]
  · intro s data now hexp
    unfold Input.shouldIgnoreBeforeInputFromComposition
    cases h : s.lastCompositionData with
    | none => rfl
    | some prev =>
      have : ¬(now - s.lastCompositionTime < Input.beforeInputIgnoreMs) := by
        unfold Input.beforeInputIgnoreMs; linarith
      simp [this]
  · intro s data now hexp
    unfold Input.shouldIgnoreCompositionEnd
    cases h : s.lastBeforeInputData with
    | none => rfl
    | some prev =>
      have : ¬(now - s.lastBeforeInputTime < Input.beforeInputIgnoreMs) := by
        unfold Input.beforeInputIgnoreMs; linarith
      simp [this]
  · intro s data src now hexp
    unfold Input.shouldIgnorePasteEvent
    cases h : s.lastPasteData with
    | none => rfl
    | some prev =>
      by_cases hsrc : s.lastPasteSource = some src
      · simp [hsrc]
      · have : ¬(now - s.lastPasteTime < Input.beforeInputIgnoreMs) := by
          unfold Input.beforeInputIgnoreMs; linarith
        simp [hsrc, this]
  · intro s data now hexp
    unfold Input.shouldIgnoreBeforeInput
    cases h : s.lastKeyDownData with
    | none => rfl
    | some prev =>
      have : ¬(now - s.lastKeyDownTime < Input.beforeInputIgnoreMs) := by
        unfold Input.beforeInputIgnoreMs; linarith
      simp [this]

/-- Witness for the amended C6: an expired composition record (recorded at
time 0, checked at time 150) suppresses nothing. -/
theorem dedup_record_lifecycle_witness :
    ((100 : ℚ) ≤ 150 -
      (Input.recordCompositionData Input.initState "X" 0).lastCompositionTime) ∧
    (Input.shouldIgnoreBeforeInputFromComposition
        (Input.recordCompositionData Input.initState "X" 0) "X" 150).1 = false :=
  ⟨by norm_num [Input.recordCompositionData, Input.initState],
   dedup_record_lifecycle.2.2.2.2.1 _ "X" 150
     (by norm_num [Input.recordCompositionData, Input.initState])⟩

/-! ## C7 — the fixed key-encoding table -/

/-- **C7.** For each of Enter, Tab, Backspace, Escape, Home, End, Insert,
Delete, PageUp, PageDown and F1–F12, pressed with no modifier or with shift
only, `handleKeyDown` emits exactly the fixed sequence CR, TAB, DEL, ESC,
`ESC[H`, `ESC[F`, `ESC[2~`, `ESC[3~`, `ESC[5~`, `ESC[6~`, and the standard
VT function-key sequences (`ESC OP`…`ESC OS`, `ESC[15~`…`ESC[24~`). -/
theorem key_encoding_table_correct :
    (Input.keyEncodingTable.all fun p =>
      decide (Input.handleKeyDown false (Input.mkKeyEvent p.1 false) =
        .emit p.2)) = true ∧
    (Input.keyEncodingTable.all fun p =>
      decide (Input.handleKeyDown false (Input.mkKeyEvent p.1 true) =
        .emit p.2)) = true := by
  constructor <;> decide

/-! ## C8 — selection text extraction -/

theorem rowTextAux (line : List Sel.Cell) :
    ∀ (k lo : ℕ) (acc : String),
      (List.range' lo k).foldl
        (fun acc col =>
          match line.get? col with
          | none => acc
          | some cell => if cell.width = 0 then acc else acc ++ Sel.cellChar cell) acc
        = acc ++ Sel.concatMap Sel.cellChar
            (((line.drop lo).take k).filter fun c => !decide (c.width = 0)) := by
  intro k
  induction k with
  | zero => intro lo acc; simp [Sel.concatMap]
  | succ k ih =>
    intro lo acc
    rw [show List.range' lo (k + 1) = lo :: List.range' (lo + 1) k from rfl]
    rw [List.foldl_cons]
    cases hdrop : line.drop lo with
    | nil =>
      have hlen : line.length ≤ lo := List.drop_eq_nil_iff.mp hdrop
      have hget : line.get? lo = none := List.get?_eq_none.mpr hlen
      have hdrop1 : line.drop (lo + 1) = [] := List.drop_eq_nil_iff.mpr (by omega)
      simp only [hget]
      rw [ih (lo + 1)]
      simp [hdrop, hdrop1, Sel.concatMap]
    | cons c t =>
      have hget : line.get? lo = some c := by
        have h0 := List.get?_drop line lo 0
        rw [hdrop] at h0
        simpa using h0.symm
      have hdrop1 : line.drop (lo + 1) = t := by
        have h2 : (line.drop lo).drop 1 = line.drop (lo + 1) := by
          rw [List.drop_drop]
        rw [← h2, hdrop]
        rfl
      simp only [hget]
      rw [ih (lo + 1)]
      by_cases hw : c.width = 0
      · simp [hdrop, hdrop1, hw, Sel.concatMap]
      · simp [hdrop, hdrop1, hw, Sel.concatMap, String.append_assoc]

theorem rowText_eq_spec (line : List Sel.Cell) (lo : ℕ) (hi : ℤ) :
    Sel.rowText line lo hi = Sel.specRowString line lo (hi + 1).toNat := by
  unfold Sel.rowText Sel.specRowString Sel.colList
  rw [rowTextAux, String.empty_append, List.drop_take]

theorem getSelectionGo_spec (getLine : ℕ → Option (List Sel.Cell)) (c : Sel.Coords) :
    ∀ (k a : ℕ) (acc : String),
      a + k = c.endRow →
      (∀ r, a ≤ r → r ≤ c.endRow → (getLine r).isSome = true) →
      Sel.getSelectionGo getLine c (List.range' a (k + 1)) acc =
        acc ++ Sel.joinRows ((List.range' a (k + 1)).map (Sel.specRowOf getLine c)) := by
  intro k
  induction k with
  | zero =>
    intro a acc ha hlines
    have haeq : a = c.endRow := by omega
    obtain ⟨line, hline⟩ := Option.isSome_iff_exists.mp (hlines a le_rfl (by omega))
    rw [show List.range' a 1 = [a] from rfl]
    unfold Sel.getSelectionGo
    rw [hline]
    unfold Sel.getSelectionGo
    have hnotlt : ¬a < c.endRow := by omega
    have htoNat : ((c.endCol : ℤ) + 1).toNat = c.endCol + 1 := by omega
    simp only [List.map_cons, List.map_nil, Sel.joinRows, Sel.specRowOf, hline,
      if_pos haeq, if_neg hnotlt, rowText_eq_spec, htoNat, String.append_empty]
  | succ k ih =>
    intro a acc ha hlines
    have halt : a < c.endRow := by omega
    have hane : ¬a = c.endRow := by omega
    obtain ⟨line, hline⟩ := Option.isSome_iff_exists.mp (hlines a le_rfl (by omega))
    rw [show List.range' a (k + 1 + 1) = a :: List.range' (a + 1) (k + 1) from rfl]
    unfold Sel.getSelectionGo
    rw [hline]
    have htoNat : ((line.length : ℤ) - 1 + 1).toNat = line.length := by omega
    simp only [if_neg hane, if_pos halt, rowText_eq_spec, htoNat]
    rw [ih (a + 1) _ (by omega) (fun r hr1 hr2 => hlines r (by omega) hr2)]
    rw [show List.range' (a + 1) (k + 1) = (a + 1) :: List.range' (a + 2) k from rfl]
    simp only [List.map_cons, Sel.joinRows, Sel.specRowOf, hline, if_neg hane,
      String.append_assoc]

/-- **C8.** For every normalized selection whose rows all exist in the grid,
`getSelection` extracts exactly what the specification describes: the range
is walked row by row, only the first row is clipped at the start column and
only the last row at the end column (all other rows taken in full),
zero-width wide-character continuation cells are skipped, empty cells
(codepoint 0) render as a single space, and the rows are joined by exactly
one newline with no trailing newline after the last row. -/
theorem getSelection_follows_spec (getLine : ℕ → Option (List Sel.Cell))
    (c : Sel.Coords) (hrows : ∀ r ∈ Sel.rowIndices c, (getLine r).isSome = true) :
    Sel.getSelection getLine c = Sel.specSelection getLine c := by
  unfold Sel.getSelection Sel.specSelection Sel.rowIndices at *
  by_cases hse : c.startRow ≤ c.endRow
  · have hk : c.endRow + 1 - c.startRow = (c.endRow - c.startRow) + 1 := by omega
    rw [hk] at hrows ⊢
    rw [getSelectionGo_spec getLine c (c.endRow - c.startRow) c.startRow "" (by omega)
      (fun r hr1 hr2 => hrows r (List.mem_range'_1.mpr ⟨hr1, by omega⟩))]
    rw [String.empty_append]
  · have hz : c.endRow + 1 - c.startRow = 0 := by omega
    rw [hz]
    simp [Sel.getSelectionGo, Sel.joinRows]

/-- Witness for C8: a 4×2 grid with a wide character (`你`, width 2, with a
zero-width continuation cell) and an empty cell; the selection from
(col 1, row 0) to (col 2, row 1) reads back `"你 \nbcd"`. -/
theorem getSelection_follows_spec_witness :
    (∀ r ∈ Sel.rowIndices ⟨1, 0, 2, 1⟩,
      ((fun r => if r = 0 then
          some [⟨97, 1⟩, ⟨0x4F60, 2⟩, ⟨0, 0⟩, ⟨0, 1⟩]
        else if r = 1 then
          some [⟨98, 1⟩, ⟨99, 1⟩, ⟨100, 1⟩, ⟨101, 1⟩]
        else (none : Option (List Sel.Cell))) r).isSome = true) ∧
    Sel.getSelection
      (fun r => if r = 0 then
          some [⟨97, 1⟩, ⟨0x4F60, 2⟩, ⟨0, 0⟩, ⟨0, 1⟩]
        else if r = 1 then
          some [⟨98, 1⟩, ⟨99, 1⟩, ⟨100, 1⟩, ⟨101, 1⟩]
        else none) ⟨1, 0, 2, 1⟩ =
      Sel.specSelection
        (fun r => if r = 0 then
            some [⟨97, 1⟩, ⟨0x4F60, 2⟩, ⟨0, 0⟩, ⟨0, 1⟩]
          else if r = 1 then
            some [⟨98, 1⟩, ⟨99, 1⟩, ⟨100, 1⟩, ⟨101, 1⟩]
          else none) ⟨1, 0, 2, 1⟩ ∧
    Sel.getSelection
      (fun r => if r = 0 then
          some [⟨97, 1⟩, ⟨0x4F60, 2⟩, ⟨0, 0⟩, ⟨0, 1⟩]
        else if r = 1 then
          some [⟨98, 1⟩, ⟨99, 1⟩, ⟨100, 1⟩, ⟨101, 1⟩]
        else none) ⟨1, 0, 2, 1⟩ = "你 \nbcd" :=
  ⟨by decide,
   getSelection_follows_spec _ ⟨1, 0, 2, 1⟩ (by decide),
   by decide⟩

/-! ## C10 — selection-change notification discipline -/

/-- **C10.** `clearSelection` fires no selection-change notification and
always leaves `hasSelection()` false; `press` (mousedown, which also clears
any existing selection) and `move` (drag) never fire; `release` (mouseup)
fires exactly one notification precisely when a drag was active and the
extracted text is non-empty; `doubleClick` fires at most once and only when
the clicked cell lies on a word; and the programmatic `selectAll`, `select`
and `selectLines` each fire exactly one notification. -/
theorem selection_change_notification_discipline :
    (∀ s : Sel.SelState,
      (Sel.clearSelection s).2 = 0 ∧
        Sel.hasSelection (Sel.clearSelection s).1 = false) ∧
    (∀ (cell : ℕ × ℕ) (s : Sel.SelState), (Sel.press cell s).2 = 0) ∧
    (∀ (cell : ℕ × ℕ) (s : Sel.SelState), (Sel.move cell s).2 = 0) ∧
    (∀ (getLine : ℕ → Option (List Sel.Cell)) (s : Sel.SelState),
      (Sel.release getLine s).2 =
        if s.isSelecting = true ∧
            Sel.selectionTextOf getLine { s with isSelecting := false } ≠ ""
        then 1 else 0) ∧
    (∀ (getLine : ℕ → Option (List Sel.Cell)) (cell : ℕ × ℕ) (s : Sel.SelState),
      (Sel.doubleClick getLine cell s).2 = 0 ∨
        ((Sel.doubleClick getLine cell s).2 = 1 ∧
          (Sel.getWordAtCell getLine cell.1 cell.2).isSome = true)) ∧
    (∀ (cols rows : ℕ) (s : Sel.SelState), (Sel.selectAll cols rows s).2 = 1) ∧
    (∀ (cols rows column row len : ℕ) (s : Sel.SelState),
      (Sel.select cols rows column row len s).2 = 1) ∧
    (∀ (cols rows : ℕ) (a b : ℤ) (s : Sel.SelState),
      (Sel.selectLines cols rows a b s).2 = 1) := by
  refine ⟨?_, ?_, ?_, ?_, ?_, fun _ _ _ => rfl, fun _ _ _ _ _ _ => rfl,
    fun _ _ _ _ _ => rfl⟩
  · intro s
    unfold Sel.clearSelection
    cases h : Sel.hasSelection s with
    | false => simp [h]
    | true => simp [h, Sel.hasSelection]
  · intro cell s
    rfl
  · intro cell s
    unfold Sel.move
    split <;> rfl
  · intro gl s
    unfold Sel.release
    by_cases hsel : s.isSelecting = true
    · by_cases htext : Sel.selectionTextOf gl { s with isSelecting := false } ≠ ""
      · simp [hsel, htext]
      · simp [hsel, htext]
    · simp [hsel]
  · intro gl cell s
    unfold Sel.doubleClick
    cases hword : Sel.getWordAtCell gl cell.1 cell.2 with
    | none => exact Or.inl rfl
    | some w =>
      by_cases htext : Sel.selectionTextOf gl
          { s with selStart := some (w.1, cell.2), selEnd := some (w.2, cell.2) } ≠ ""
      · exact Or.inr ⟨by simp [htext], by simp [hword]⟩
      · exact Or.inl (by simp [htext])

end GhosttyWeb
